import Mathlib

/-!
Shallow embedding of the odoo-ruian address-registry import pipeline.

Source files modelled: models/ruian_import.py (RuianImport), models/ruian_log.py
(RuianImportLog, model name ruian.log), models/ruian_town.py, models/ruian_street.py,
models/ruian_number.py.

Conventions of the embedding:
- a csv.DictReader record becomes an explicit Row structure whose fields mirror the
  Czech column headers; a header absent from the row is none, row.get(k, d) is getD;
- Python int()/float() become explicit executable parsers pyInt/pyFloat over decimal
  literals; a parse failure is Option.none and is propagated as an Except error where
  the Python code would raise ValueError;
- the Odoo store becomes maps from the natural keys (town code, street name, number
  code) to records; record ids coincide with the natural keys, mirroring the unique
  SQL constraints of ruian_town.py, ruian_street.py and ruian_number.py;
- the pyproj EPSG 5514 to EPSG 4326 transformer is an abstract parameter T (it is an
  external library; always_xy means T returns a (lon, lat) pair);
- the mutable global_stats dict is threaded as an explicit Stats value; an exception
  escaping a file carries the store and stats visible at the raise point, since the
  enclosing loop neither rolls back nor resets them.
-/

namespace Ruian

/-- Numeric value of a digit list, most significant first. -/
def digitsVal (l : List Char) : Nat :=
  l.foldl (fun n c => n * 10 + (c.toNat - 48)) 0

/-- Python str.strip with no argument: drop whitespace from both ends. -/
def pyStrip (s : String) : String :=
  String.mk (((s.toList.dropWhile Char.isWhitespace).reverse.dropWhile Char.isWhitespace).reverse)

/-- Core of Python int(s) after stripping: optional sign then a nonempty digit run. -/
def pyIntChars : List Char → Option Int
  | [] => none
  | '-' :: cs => if cs ≠ [] ∧ cs.all Char.isDigit then some (-(digitsVal cs : Int)) else none
  | '+' :: cs => if cs ≠ [] ∧ cs.all Char.isDigit then some (digitsVal cs : Int) else none
  | cs => if cs.all Char.isDigit then some (digitsVal cs : Int) else none

/-- Python int(s) on decimal literals; none models a ValueError. Digit-grouping
underscores are outside the modelled grammar. -/
def pyInt (s : String) : Option Int := pyIntChars (pyStrip s).toList

/-- Split a character list at the first exponent marker. -/
def splitExp : List Char → List Char × Option (List Char)
  | [] => ([], none)
  | c :: cs =>
    if c = 'e' ∨ c = 'E' then ([], some cs)
    else
      let r := splitExp cs
      (c :: r.1, r.2)

/-- Consume an optional leading sign; true means negative. -/
def parseSign : List Char → Bool × List Char
  | '-' :: cs => (true, cs)
  | '+' :: cs => (false, cs)
  | cs => (false, cs)

/-- Mantissa of a decimal literal: digits with an optional dot, one digit somewhere. -/
def parseMantissa (t : List Char) : Option ℚ :=
  let ip := t.takeWhile Char.isDigit
  let rest := t.dropWhile Char.isDigit
  match rest with
  | [] => if ip = [] then none else some (digitsVal ip : ℚ)
  | '.' :: fp =>
    if (ip ≠ [] ∨ fp ≠ []) ∧ fp.all Char.isDigit then
      some ((digitsVal ip : ℚ) + (digitsVal fp : ℚ) / (10 : ℚ) ^ fp.length)
    else none
  | _ => none

/-- Exponent part of a decimal literal: optional sign then nonempty digits. -/
def parseExpPart (t : List Char) : Option Int :=
  match parseSign t with
  | (neg, ds) =>
    if ds ≠ [] ∧ ds.all Char.isDigit then
      some (if neg then -(digitsVal ds : Int) else (digitsVal ds : Int))
    else none

/-- Python float(s) on finite decimal literals, optionally signed, with optional
fraction and exponent, valued in the rationals. The spellings inf and nan and
digit-grouping underscores are outside the modelled grammar. none models a
ValueError; float(None), that is a missing input, raises TypeError and is handled
by the callers of this parser through Option.bind. -/
def pyFloat (s : String) : Option ℚ :=
  let t := (pyStrip s).toList
  match parseSign t with
  | (neg, t1) =>
    match splitExp t1 with
    | (m, eo) =>
      match parseMantissa m, eo with
      | some q, none => some (if neg then -q else q)
      | some q, some ec =>
        (parseExpPart ec).map (fun k => (if neg then -q else q) * (10 : ℚ) ^ k)
      | none, _ => none

/-- One csv.DictReader record. The field names correspond to the Czech column
headers consumed by the import: kodCastiObce is the town code column, nazevObce
the settlement name, nazevCastiObce the settlement part name, psc the postal code,
nazevUlice the street name, kodAdm the address-point code, cisloDomovni the house
number, cisloOrientacni the orientation number, cisloOrientacniPismeno its letter,
souradniceX and souradniceY the projected coordinates. -/
structure Row where
  kodCastiObce : Option String := none
  nazevObce : Option String := none
  nazevCastiObce : Option String := none
  psc : Option String := none
  nazevUlice : Option String := none
  kodAdm : Option String := none
  cisloDomovni : Option String := none
  cisloOrientacni : Option String := none
  cisloOrientacniPismeno : Option String := none
  souradniceX : Option String := none
  souradniceY : Option String := none
deriving DecidableEq, Repr

/-- Python truthiness of row.get(k): a missing field and the empty string are falsy. -/
def truthy (o : Option String) : Bool := o.getD "" != ""

/-- get_town_name from ruian_import.py lines 41-47. -/
def get_town_name (r : Row) : String :=
  let town := pyStrip (r.nazevObce.getD "")
  let part := pyStrip (r.nazevCastiObce.getD "")
  if part ≠ "" ∧ part ≠ town then town ++ " - " ++ part else town

/-- get_number_name from ruian_import.py lines 32-39. -/
def get_number_name (r : Row) : String :=
  let domovni := pyStrip (r.cisloDomovni.getD "")
  let orient_number := pyStrip (r.cisloOrientacni.getD "")
  let orient_letter := pyStrip (r.cisloOrientacniPismeno.getD "")
  if orient_number ≠ "" then pyStrip (domovni ++ "/" ++ orient_number ++ orient_letter)
  else if domovni ≠ "" then domovni
  else "Unknown"

/-- convert_to_gps from ruian_import.py lines 49-57. T is the pyproj transformer
with always_xy, so T x y is a (lon, lat) pair and the function returns (lat, lon).
A missing input (float(None) raising TypeError) or an unparseable input (ValueError)
is caught and becomes the (0, 0) sentinel. -/
def convert_to_gps (T : ℚ → ℚ → ℚ × ℚ) (x y : Option String) : ℚ × ℚ :=
  match x.bind pyFloat, y.bind pyFloat with
  | some a, some b => ((T a b).2, (T a b).1)
  | _, _ => (0, 0)

/-! Target date computation, ruian_import.py lines 59-64, and the download URL of
lines 372-374. Dates are proleptic Gregorian triples as in datetime.date. -/

/-- Gregorian leap year test. -/
def isLeap (y : Nat) : Bool := (y % 4 == 0 && y % 100 != 0) || y % 400 == 0

/-- Number of days of month m of year y. -/
def daysInMonth (y m : Nat) : Nat :=
  if m = 2 then (if isLeap y then 29 else 28)
  else if m = 4 ∨ m = 6 ∨ m = 9 ∨ m = 11 then 30
  else 31

/-- A datetime.date value. -/
structure PyDate where
  year : Nat
  month : Nat
  day : Nat
deriving DecidableEq, Repr

/-- The representation invariant datetime.date guarantees. -/
def PyDate.Valid (d : PyDate) : Prop :=
  1 ≤ d.month ∧ d.month ≤ 12 ∧ 1 ≤ d.day ∧ d.day ≤ daysInMonth d.year d.month ∧ 1 ≤ d.year

/-- today.replace(day=1). -/
def replaceDay1 (d : PyDate) : PyDate := ⟨d.year, d.month, 1⟩

/-- date - timedelta(days=1). -/
def minusOneDay (d : PyDate) : PyDate :=
  if 1 < d.day then ⟨d.year, d.month, d.day - 1⟩
  else if 1 < d.month then ⟨d.year, d.month - 1, daysInMonth d.year (d.month - 1)⟩
  else ⟨d.year - 1, 12, 31⟩

/-- Zero-padded two-digit rendering. -/
def pad2 (n : Nat) : String := if n < 10 then "0" ++ toString n else toString n

/-- Zero-padded four-digit rendering. -/
def pad4 (n : Nat) : String :=
  if n < 10 then "000" ++ toString n
  else if n < 100 then "00" ++ toString n
  else if n < 1000 then "0" ++ toString n
  else toString n

/-- strftime with the year-month-day layout used by the import. -/
def strftimeYmd (d : PyDate) : String := pad4 d.year ++ pad2 d.month ++ pad2 d.day

/-- calculate_target_date from ruian_import.py lines 59-64. -/
def calculate_target_date (today : PyDate) : String :=
  strftimeYmd (minusOneDay (replaceDay1 (minusOneDay (replaceDay1 today))))

/-- The URL built by download_zip, ruian_import.py line 374. -/
def download_url (today : PyDate) : String :=
  "https://vdp.cuzk.gov.cz/vymenny_format/csv/" ++ calculate_target_date today ++
    "_OB_ADR_csv.zip"

/-- The year and month lying two calendar months before month m of year y. -/
def twoMonthsBack (y m : Nat) : Nat × Nat := if 2 < m then (y, m - 2) else (y - 1, m + 10)

/-! The counters of the mutable global_stats dict of run_ruian_import, lines 87-100,
which the checkpoint log.write(global_stats) mirrors into the ruian.log record. -/

/-- The global_stats dictionary. -/
structure Stats where
  towns : Nat := 0
  towns_created : Nat := 0
  towns_updated : Nat := 0
  streets : Nat := 0
  streets_created : Nat := 0
  streets_updated : Nat := 0
  numbers : Nat := 0
  numbers_created : Nat := 0
  numbers_updated : Nat := 0
  rows : Nat := 0
  warnings : Nat := 0
  files : Nat := 0
deriving DecidableEq, Repr

/-- The all-zero initial statistics. -/
def stats0 : Stats := {}

/-! The ruian.log record of ruian_log.py and the operations ruian_import.py
performs on it. Timestamps are abstract naturals. -/

/-- The state selection field of ruian.log. -/
inductive LogState
  | running
  | failed
  | done
deriving DecidableEq, Repr

/-- A ruian.log record. Unset datetimes are none; integer fields default to 0. -/
structure LogRec where
  name : String := ""
  state : LogState := .running
  start_date : Option Nat := none
  end_date : Option Nat := none
  file_count : Nat := 0
  counters : Stats := {}
  error_message : String := ""
deriving DecidableEq, Repr

/-- The log creation of run_ruian_import lines 72-78: state running, start stamped,
end unset, counters at their integer defaults. -/
def log_create (nm : String) (t : Nat) : LogRec :=
  { name := nm, state := .running, start_date := some t }

/-- The file-count assignment of line 85. -/
def log_set_file_count (n : Nat) (log : LogRec) : LogRec := { log with file_count := n }

/-- The checkpoint write of line 202: log.write(global_stats) overwrites the
counter fields. -/
def log_checkpoint (st : Stats) (log : LogRec) : LogRec := { log with counters := st }

/-- The completion write of lines 132-139. -/
def log_finish_done (t : Nat) (files : Nat) (log : LogRec) : LogRec :=
  { log with state := .done, end_date := some t,
             counters := { log.counters with files := files } }

/-- The failure write of lines 169-175; the error text is truncated to 500. -/
def log_finish_failed (t : Nat) (msg : String) (log : LogRec) : LogRec :=
  { log with state := .failed, end_date := some t, error_message := msg.take 500 }

/-- The register_hook recovery of lines 22-30: a log found running is written to
failed; nothing else on it is touched. -/
def register_hook_recover (log : LogRec) : LogRec :=
  if log.state = .running then { log with state := .failed } else log

/-- compute_progress from ruian_log.py lines 62-70. The percentage is a float in
the source; it is modelled as a rational and the .0f format as rounding. -/
def fmtPct (q : ℚ) : String := toString (round q)

/-- The progress string files / file_count (percent). Division by file_count is
guarded by the positivity test of line 65. -/
def compute_progress (files file_count : Int) : String :=
  let percentage : ℚ := if 0 < file_count then ((files : ℚ) / (file_count : ℚ)) * 100 else 0
  toString files ++ " / " ++ toString file_count ++ " (" ++ fmtPct percentage ++ "%)"

/-! The persistent store. Towns are keyed by code, streets by name, numbers by
code, matching the unique constraints of ruian_town.py, ruian_street.py and
ruian_number.py; the record id exposed by the Odoo cache coincides with the key. -/

/-- A ruian.town row (and the per-code entry of town_data_map). -/
structure TownRec where
  name : String
  postal_code : String
deriving DecidableEq, Repr

/-- A ruian.street row: its accumulated many2many town ids. -/
structure StreetRec where
  town_ids : Finset Int
deriving DecidableEq

/-- A ruian.number row as written by the import (the dict of lines 317-324). -/
structure NumberRec where
  name : String
  lat : ℚ
  lon : ℚ
  town_id : Option Int
  street_id : Option String
deriving DecidableEq

/-- The three entity tables. -/
structure Store where
  towns : Int → Option TownRec
  streets : String → Option StreetRec
  numbers : Int → Option NumberRec

/-- The store with empty tables. -/
def emptyStore : Store := ⟨fun _ => none, fun _ => none, fun _ => none⟩

/-- Point update of a keyed table. -/
def updMap {κ β : Type} [DecidableEq κ] (f : κ → Option β) (k : κ) (v : β) : κ → Option β :=
  fun k' => if k' = k then some v else f k'

/-- First-some choice, the explicit form of orElse on Option. -/
def oget {α : Type} (a b : Option α) : Option α :=
  match a with
  | some x => some x
  | none => b

/-- Apply a list of keyed writes left to right. -/
def applyWrites {κ β : Type} [DecidableEq κ] (l : List (κ × β)) (f : κ → Option β) :
    κ → Option β :=
  l.foldl (fun g kv => updMap g kv.1 kv.2) f

/-- The value of the last write of key k in a write list, if any. -/
def lastVal {κ β : Type} [DecidableEq κ] (l : List (κ × β)) (k : κ) : Option β :=
  l.foldl (fun acc kv => if kv.1 = k then some kv.2 else acc) none

/-- Append to a list unless already present; the model of adding to a Python set
that also fixes an iteration order. -/
def addOnce {α : Type} [DecidableEq α] (l : List α) (a : α) : List α :=
  if a ∈ l then l else l ++ [a]

/-- Dictionary access on an association list, first match wins; the keys are kept
unique by construction. -/
def dlookup {κ β : Type} [DecidableEq κ] (l : List (κ × β)) (k : κ) : Option β :=
  match l with
  | [] => none
  | kv :: tl => if kv.1 = k then some kv.2 else dlookup tl k

/-! collect_geo_data, ruian_import.py lines 208-235: one pass over the rows
gathering town codes, first-encounter town data, street names and the street to
town-code relation. int() failures propagate as exceptions. -/

/-- The accumulator of collect_geo_data. stm_keys records the key insertion order
of the street_town_map defaultdict. -/
structure Collect where
  town_codes : List Int
  town_data_map : List (Int × TownRec)
  street_names : List String
  stm_keys : List String
  street_town_map : String → Finset Int

/-- The empty accumulator. -/
def collect0 : Collect := ⟨[], [], [], [], fun _ => ∅⟩

/-- The town half of the loop body, lines 216-225. A truthy unparseable code is a
raised ValueError. -/
def collectTown (acc : Collect) (r : Row) : Except Unit Collect :=
  match r.kodCastiObce with
  | none => .ok acc
  | some s =>
    if s = "" then .ok acc
    else
      match pyInt s with
      | none => .error ()
      | some c =>
        .ok { acc with
              town_codes := addOnce acc.town_codes c,
              town_data_map :=
                if (dlookup acc.town_data_map c).isSome then acc.town_data_map
                else acc.town_data_map ++ [(c, ⟨get_town_name r, pyStrip (r.psc.getD "")⟩)] }

/-- The street half of the loop body, lines 227-233. -/
def collectStreet (acc : Collect) (r : Row) : Except Unit Collect :=
  let sn := pyStrip (r.nazevUlice.getD "")
  if sn = "" then .ok acc
  else
    let acc1 := { acc with street_names := addOnce acc.street_names sn }
    match r.kodCastiObce with
    | none => .ok acc1
    | some s =>
      if s = "" then .ok acc1
      else
        match pyInt s with
        | none => .error ()
        | some c =>
          .ok { acc1 with
                stm_keys := addOnce acc1.stm_keys sn,
                street_town_map := fun s' =>
                  if s' = sn then insert c (acc1.street_town_map s')
                  else acc1.street_town_map s' }

/-- One full loop iteration: town block then street block. -/
def collectRow (acc : Collect) (r : Row) : Except Unit Collect :=
  match collectTown acc r with
  | .error e => .error e
  | .ok acc1 => collectStreet acc1 r

/-- The loop of collect_geo_data over the remaining rows. -/
def collectRows (acc : Collect) : List Row → Except Unit Collect
  | [] => .ok acc
  | r :: rs =>
    match collectRow acc r with
    | .error e => .error e
    | .ok acc1 => collectRows acc1 rs

/-- collect_geo_data, lines 208-235. -/
def collect_geo_data (rows : List Row) : Except Unit Collect :=
  collectRows collect0 rows

/-! process_towns, lines 237-267. Existing towns are looked up, missing ones with
available data are created; existing rows are not written to. The returned cache
covers the found and the created codes; a record id is its code. -/

/-- Result of process_towns: the new store, the created count and the town cache. -/
structure TownsOut where
  store : Store
  created : Nat
  cache : List Int

/-- process_towns, lines 237-267. -/
def process_towns (d : Collect) (S : Store) : TownsOut :=
  let missing := d.town_codes.filter (fun c => (S.towns c).isNone)
  let creates := missing.filterMap (fun c => (dlookup d.town_data_map c).map (fun td => (c, td)))
  { store := { S with towns := applyWrites creates S.towns },
    created := creates.length,
    cache := d.town_codes.filter
      (fun c => (S.towns c).isSome || (dlookup d.town_data_map c).isSome) }

/-- The statistics update of lines 263-265. -/
def addTownStats (st : Stats) (total created : Nat) : Stats :=
  { st with towns_created := st.towns_created + created,
            towns_updated := st.towns_updated + (total - created),
            towns := st.towns + created }

/-! process_streets, lines 269-307. Missing names are created with no towns; then
for each street_town_map entry the resolved town ids not yet associated are added
through (4, id) link commands, which is a set union. -/

/-- Result of process_streets: the new store and the created count. The street
cache is the full name list, since existing and created names cover it. -/
structure StreetsOut where
  store : Store
  created : Nat

/-- process_streets, lines 269-307. -/
def process_streets (d : Collect) (tcache : List Int) (S : Store) : StreetsOut :=
  let missing := d.street_names.filter (fun n => (S.streets n).isNone)
  let f1 := applyWrites (missing.map (fun n => (n, StreetRec.mk ∅))) S.streets
  let f2 := d.stm_keys.foldl
    (fun f s =>
      match f s with
      | some rec =>
          updMap f s ⟨rec.town_ids ∪ (d.street_town_map s).filter (fun c => c ∈ tcache)⟩
      | none => f)
    f1
  { store := { S with streets := f2 }, created := missing.length }

/-- The statistics update of lines 303-305. -/
def addStreetStats (st : Stats) (total created : Nat) : Stats :=
  { st with streets_created := st.streets_created + created,
            streets_updated := st.streets_updated + (total - created),
            streets := st.streets + created }

/-! process_number_chunk, lines 309-370. Each row with a truthy address-point code
yields a number record; the chunk is then split against the existing codes into a
bulk create and per-record updates. -/

/-- The per-row dict of lines 317-324 before the bulk phase. -/
structure NumberData where
  code : Int
  name : String
  lat : ℚ
  lon : ℚ
  town_id : Option Int
  street_id : Option String
deriving DecidableEq

/-- The stored row a NumberData becomes. -/
def toNumberRec (nd : NumberData) : NumberRec :=
  ⟨nd.name, nd.lat, nd.lon, nd.town_id, nd.street_id⟩

/-- The town resolution of lines 327-332: a truthy code is parsed (a ValueError
propagates) and looked up in the cache; a cache miss yields the empty recordset
whose id is null. -/
def resolveTownId (tcache : List Int) (o : Option String) : Except Unit (Option Int) :=
  match o with
  | none => .ok none
  | some s =>
    if s = "" then .ok none
    else
      match pyInt s with
      | none => .error ()
      | some c => .ok (if c ∈ tcache then some c else none)

/-- The street resolution of lines 334-339. -/
def resolveStreetId (scache : List String) (o : Option String) : Option String :=
  let sn := pyStrip (o.getD "")
  if sn = "" then none
  else if sn ∈ scache then some sn else none

/-- The coordinate step of lines 341-344: conversion runs only when both fields
are truthy, otherwise the initial zeros stand. -/
def coordPair (T : ℚ → ℚ → ℚ × ℚ) (r : Row) : ℚ × ℚ :=
  if truthy r.souradniceX && truthy r.souradniceY then
    convert_to_gps T r.souradniceX r.souradniceY
  else (0, 0)

/-- The loop body of lines 312-346 for one row: none means the row was skipped for
numbers, an error is a raised ValueError. -/
def buildNumberData (T : ℚ → ℚ → ℚ × ℚ) (tcache : List Int) (scache : List String)
    (r : Row) : Except Unit (Option NumberData) :=
  let code_str := pyStrip (r.kodAdm.getD "")
  if code_str = "" then .ok none
  else
    match pyInt code_str with
    | none => .error ()
    | some code =>
      match resolveTownId tcache r.kodCastiObce with
      | .error e => .error e
      | .ok tid =>
        let sid := resolveStreetId scache r.nazevUlice
        let p := coordPair T r
        .ok (some ⟨code, get_number_name r, p.1, p.2, tid, sid⟩)

/-- The numbers_data accumulation over a chunk. -/
def buildChunk (T : ℚ → ℚ → ℚ × ℚ) (tcache : List Int) (scache : List String) :
    List Row → Except Unit (List NumberData)
  | [] => .ok []
  | r :: rs =>
    match buildNumberData T tcache scache r with
    | .error e => .error e
    | .ok o =>
      match buildChunk T tcache scache rs with
      | .error e => .error e
      | .ok l => .ok (o.toList ++ l)

/-- process_number_chunk, lines 309-370. An exception leaves the store and the
statistics as they were, since the loop raises before any write of this chunk. -/
def process_number_chunk (T : ℚ → ℚ → ℚ × ℚ) (tcache : List Int) (scache : List String)
    (chunk : List Row) (S : Store) (st : Stats) : Except (Store × Stats) (Store × Stats) :=
  match buildChunk T tcache scache chunk with
  | .error _ => .error (S, st)
  | .ok nds =>
    let to_create := nds.filter (fun n => (S.numbers n.code).isNone)
    let to_update := nds.filter (fun n => (S.numbers n.code).isSome)
    let f1 := applyWrites (to_create.map (fun n => (n.code, toNumberRec n))) S.numbers
    let f2 := applyWrites (to_update.map (fun n => (n.code, toNumberRec n))) f1
    .ok ({ S with numbers := f2 },
         { st with numbers := st.numbers + to_create.length,
                   numbers_created := st.numbers_created + to_create.length,
                   numbers_updated := st.numbers_updated + to_update.length,
                   rows := st.rows + chunk.length })

/-- Fuel-driven chunking; the fuel is the list length, enough for a positive n. -/
def chunksOfAux {α : Type} (n : Nat) : Nat → List α → List (List α)
  | 0, _ => []
  | _, [] => []
  | fuel + 1, l => l.take n :: chunksOfAux n fuel (l.drop n)

/-- The chunk decomposition of the range loop of lines 194-197. -/
def chunksOf {α : Type} (n : Nat) (l : List α) : List (List α) :=
  chunksOfAux n l.length l

/-- The chunk loop of lines 193-203. Failure carries the store and statistics at
the raise point: neither the loop nor its caller rolls anything back. -/
def processChunks (T : ℚ → ℚ → ℚ × ℚ) (tcache : List Int) (scache : List String) :
    List (List Row) → Store → Stats → Except (Store × Stats) (Store × Stats)
  | [], S, st => .ok (S, st)
  | c :: cs, S, st =>
    match process_number_chunk T tcache scache c S st with
    | .error e => .error e
    | .ok (S1, st1) => processChunks T tcache scache cs S1 st1

/-- process_csv_bulk, lines 182-206: collect, towns, streets, then the chunked
number pass. The street cache handed to the chunk pass holds every collected
street name, since existing and created names cover street_names. -/
def process_csv_bulk (T : ℚ → ℚ → ℚ × ℚ) (rows : List Row) (S : Store) (st : Stats) :
    Except (Store × Stats) (Store × Stats) :=
  match collect_geo_data rows with
  | .error _ => .error (S, st)
  | .ok d =>
    let tout := process_towns d S
    let st1 := addTownStats st d.town_codes.length tout.created
    let sout := process_streets d tout.cache tout.store
    let st2 := addStreetStats st1 d.street_names.length sout.created
    processChunks T tout.cache d.street_names (chunksOf 10000 rows) sout.store st2

/-- The per-file loop of run_ruian_import lines 102-129 over the archive members:
a successful file bumps the files counter, a failed one bumps warnings and the
loop continues; the store and statistics reached inside the failed file persist. -/
def run_files (T : ℚ → ℚ → ℚ × ℚ) : List (List Row) → Store → Stats → Store × Stats
  | [], S, st => (S, st)
  | f :: fs, S, st =>
    match process_csv_bulk T f S st with
    | .ok (S1, st1) => run_files T fs S1 { st1 with files := st1.files + 1 }
    | .error (S1, st1) => run_files T fs S1 { st1 with warnings := st1.warnings + 1 }

/-- The store reached by a file outcome: an exception carries the store at the
raise point, a success the final one. -/
def outStore (e : Except (Store × Stats) (Store × Stats)) : Store :=
  match e with
  | .ok (S, _) => S
  | .error (S, _) => S

/-- The statistics reached by a file outcome. -/
def outStats (e : Except (Store × Stats) (Store × Stats)) : Stats :=
  match e with
  | .ok (_, st) => st
  | .error (_, st) => st

/-- Structural facts every accumulator reachable by collect_geo_data satisfies:
every collected town code has first-encounter data, the street_town_map keys are
collected street names, its members are collected town codes, untouched keys are
empty, and the key lists are duplicate free. -/
def CollectInv (d : Collect) : Prop :=
  (∀ c ∈ d.town_codes, (dlookup d.town_data_map c).isSome) ∧
  (∀ s ∈ d.stm_keys, s ∈ d.street_names) ∧
  (∀ s : String, ∀ c ∈ d.street_town_map s, c ∈ d.town_codes) ∧
  (∀ s : String, s ∉ d.stm_keys → d.street_town_map s = ∅) ∧
  d.town_codes.Nodup ∧ d.street_names.Nodup ∧ d.stm_keys.Nodup

/-- The part of the claimed Import Run Log invariant that the code maintains:
running implies no end date, done implies an end date. The failed-implies-end-date
part of the claimed invariant is dropped, as the startup recovery violates it. -/
def LogInvAmended (log : LogRec) : Prop :=
  (log.state = .running → log.end_date = none) ∧ (log.state = .done → log.end_date ≠ none)

/-! Concrete sample data for witnesses and counterexamples. -/

/-- A sample projection standing in for the pyproj transformer. -/
def sampleT : ℚ → ℚ → ℚ × ℚ := fun a b => (a, b)

/-- A row with a malformed (non-integer) town code. -/
def rowBadTown : Row := { kodCastiObce := some "abc", nazevObce := some "A" }

/-- A well-formed row carrying town code 7. -/
def rowGoodTown : Row := { kodCastiObce := some "7", nazevObce := some "B", psc := some "100" }

/-- A well-formed row for town code 5 carrying fresh name and postal data. -/
def rowTown5 : Row := { kodCastiObce := some "5", nazevObce := some "Nove", psc := some "222" }

/-- A row with a good town code and a malformed address-point code. -/
def rowBadAdm : Row :=
  { kodCastiObce := some "5", nazevObce := some "X", psc := some "123", kodAdm := some "zz" }

/-- A row with no address-point code but a town and a street. -/
def rowNoAdm : Row :=
  { kodCastiObce := some "7", nazevObce := some "B", psc := some "100",
    nazevUlice := some "Main" }

/-- A store already holding town 5 with stale data. -/
def storeOld : Store :=
  { emptyStore with towns := updMap emptyStore.towns 5 ⟨"Old", "111"⟩ }

/-- The stripped street name of a row. -/
def rowStreet (r : Row) : String := pyStrip (r.nazevUlice.getD "")

/-- The row carries a truthy town code field parsing to c. -/
def rowTownCodeOk (r : Row) (c : Int) : Prop :=
  ∃ str, r.kodCastiObce = some str ∧ str ≠ "" ∧ pyInt str = some c

/-- A second town-union sample row for street Main, town 1. -/
def rUnion1 : Row :=
  { kodCastiObce := some "1", nazevObce := some "T1", psc := some "100",
    nazevUlice := some "Main" }

/-- A second town-union sample row for street Main, town 2. -/
def rUnion2 : Row :=
  { kodCastiObce := some "2", nazevObce := some "T2", psc := some "200",
    nazevUlice := some "Main" }

/-- The collect result of the two union sample rows. -/
def dUnion : Collect :=
  match collect_geo_data [rUnion1, rUnion2] with
  | .ok d => d
  | .error _ => collect0

/-- The collect result of the bad-address-point sample file. -/
def dBadAdm : Collect :=
  match collect_geo_data [rowBadAdm] with
  | .ok d => d
  | .error _ => collect0

/-- The store reached by the failing bad-address-point sample file. -/
def S1bad : Store := outStore (process_csv_bulk sampleT [rowBadAdm] emptyStore stats0)

/-- The statistics reached by the failing bad-address-point sample file. -/
def st1bad : Stats := outStats (process_csv_bulk sampleT [rowBadAdm] emptyStore stats0)

/-! Derived views of the pipeline used to state its pointwise behaviour: the
number writes a chunk emits, the writes a whole file emits, and their
accumulation over an archive. They depend only on the rows and the caches, never
on the store, which is what makes the second-run analysis possible. -/

/-- The keyed number writes of one chunk; an erroring chunk writes nothing. -/
def chunkWrites (T : ℚ → ℚ → ℚ × ℚ) (tcache : List Int) (scache : List String)
    (chunk : List Row) : List (Int × NumberRec) :=
  match buildChunk T tcache scache chunk with
  | .error _ => []
  | .ok nds => nds.map (fun n => (n.code, toNumberRec n))

/-- The keyed number writes of a chunk sequence, stopping at the first erroring
chunk exactly as the loop does. -/
def chunksWritesAll (T : ℚ → ℚ → ℚ × ℚ) (tcache : List Int) (scache : List String) :
    List (List Row) → List (Int × NumberRec)
  | [] => []
  | c :: cs =>
    match buildChunk T tcache scache c with
    | .error _ => []
    | .ok _ => chunkWrites T tcache scache c ++ chunksWritesAll T tcache scache cs

/-- The number of built number records over a chunk sequence, stopping at the
first erroring chunk. -/
def chunksBuiltLen (T : ℚ → ℚ → ℚ × ℚ) (tcache : List Int) (scache : List String) :
    List (List Row) → Nat
  | [] => 0
  | c :: cs =>
    match buildChunk T tcache scache c with
    | .error _ => 0
    | .ok nds => nds.length + chunksBuiltLen T tcache scache cs

/-- The town value a file would create at a code, when the file collects. -/
def fileTownWrite (rows : List Row) (c : Int) : Option TownRec :=
  match collect_geo_data rows with
  | .error _ => none
  | .ok d => if c ∈ d.town_codes then dlookup d.town_data_map c else none

/-- The town-id set a file adds to a street name: the collected codes for a
street_town_map key, the empty set for a merely created name, nothing otherwise. -/
def fileStreetTouch (rows : List Row) (s : String) : Option (Finset Int) :=
  match collect_geo_data rows with
  | .error _ => none
  | .ok d =>
    if s ∈ d.stm_keys then some (d.street_town_map s)
    else if s ∈ d.street_names then some ∅
    else none

/-- The keyed number writes of a whole file, with the canonical caches. -/
def fileNumWrites (T : ℚ → ℚ → ℚ × ℚ) (rows : List Row) : List (Int × NumberRec) :=
  match collect_geo_data rows with
  | .error _ => []
  | .ok d => chunksWritesAll T d.town_codes d.street_names (chunksOf 10000 rows)

/-- The first-file-wins town write of an archive at a code. -/
def runTownWrite : List (List Row) → Int → Option TownRec
  | [], _ => none
  | f :: fs, c => oget (fileTownWrite f c) (runTownWrite fs c)

/-- The last-file-wins number write of an archive at a code. -/
def runNumWrite (T : ℚ → ℚ → ℚ × ℚ) : List (List Row) → Int → Option NumberRec
  | [], _ => none
  | f :: fs, k => oget (runNumWrite T fs k) (lastVal (fileNumWrites T f) k)

/-- The accumulated street touch of an archive at a street name. -/
def runStreetTouch : List (List Row) → String → Option (Finset Int)
  | [], _ => none
  | f :: fs, s =>
    match fileStreetTouch f s, runStreetTouch fs s with
    | none, o => o
    | some U, none => some U
    | some U, some V => some (U ∪ V)

/-- The number of distinct town codes a file contributes to the counters. -/
def fileTownsTotal (f : List Row) : Nat :=
  match collect_geo_data f with
  | .error _ => 0
  | .ok d => d.town_codes.length

/-- The number of distinct street names a file contributes to the counters. -/
def fileStreetsTotal (f : List Row) : Nat :=
  match collect_geo_data f with
  | .error _ => 0
  | .ok d => d.street_names.length

/-- The number of built number records a file contributes to the counters. -/
def fileNumbersTotal (T : ℚ → ℚ → ℚ × ℚ) (f : List Row) : Nat :=
  match collect_geo_data f with
  | .error _ => 0
  | .ok d => chunksBuiltLen T d.town_codes d.street_names (chunksOf 10000 f)

/-- Componentwise sum of two statistics records. -/
def addStats (a b : Stats) : Stats :=
  ⟨a.towns + b.towns, a.towns_created + b.towns_created, a.towns_updated + b.towns_updated,
   a.streets + b.streets, a.streets_created + b.streets_created,
   a.streets_updated + b.streets_updated, a.numbers + b.numbers,
   a.numbers_created + b.numbers_created, a.numbers_updated + b.numbers_updated,
   a.rows + b.rows, a.warnings + b.warnings, a.files + b.files⟩

/-- Shift the statistics of a file outcome. -/
def mapStatsE (g : Stats → Stats) :
    Except (Store × Stats) (Store × Stats) → Except (Store × Stats) (Store × Stats)
  | .ok (S, st) => .ok (S, g st)
  | .error (S, st) => .error (S, g st)

/-- Presence in a store of every key a file writes: the second-run hypothesis. -/
def FileKeysPres (T : ℚ → ℚ → ℚ × ℚ) (f : List Row) (W : Store) : Prop :=
  (∀ c, (fileTownWrite f c).isSome → (W.towns c).isSome) ∧
  (∀ s, (fileStreetTouch f s).isSome → (W.streets s).isSome) ∧
  (∀ k, (lastVal (fileNumWrites T f) k).isSome → (W.numbers k).isSome)

/-! Theorems. -/

/-! General lemmas about the keyed-write primitives. -/

theorem oget_none_right {α : Type} (a : Option α) : oget a none = a := by
  cases a <;> rfl

theorem oget_assoc {α : Type} (a b c : Option α) :
    oget (oget a b) c = oget a (oget b c) := by
  cases a <;> rfl

theorem oget_self_right {α : Type} (a b : Option α) : oget (oget a b) b = oget a b := by
  cases a <;> cases b <;> rfl

theorem oget_absorb {α : Type} (a b : Option α) : oget a (oget a b) = oget a b := by
  cases a <;> rfl

theorem oget_isSome_of_right {α : Type} (a b : Option α) (h : b.isSome) :
    (oget a b).isSome := by
  cases a <;> simp [oget, h]

theorem oget_isSome_of_left {α : Type} (a b : Option α) (h : a.isSome) :
    (oget a b).isSome := by
  cases a <;> simp_all [oget]

theorem foldl_lastVal {κ β : Type} [DecidableEq κ] (l : List (κ × β)) (k : κ) (a : Option β) :
    l.foldl (fun acc kv => if kv.1 = k then some kv.2 else acc) a = oget (lastVal l k) a := by
  induction l generalizing a with
  | nil => rfl
  | cons kv tl ih =>
    rw [List.foldl_cons, ih]
    have h2 : lastVal (kv :: tl) k =
        oget (lastVal tl k) (if kv.1 = k then some kv.2 else none) := by
      simp only [lastVal, List.foldl_cons]
      exact ih _
    rw [h2, oget_assoc]
    congr 1
    by_cases h : kv.1 = k <;> simp [oget, h]

theorem lastVal_cons {κ β : Type} [DecidableEq κ] (kv : κ × β) (tl : List (κ × β)) (k : κ) :
    lastVal (kv :: tl) k = oget (lastVal tl k) (if kv.1 = k then some kv.2 else none) := by
  simp only [lastVal, List.foldl_cons]
  exact foldl_lastVal tl k _

theorem lastVal_append {κ β : Type} [DecidableEq κ] (l1 l2 : List (κ × β)) (k : κ) :
    lastVal (l1 ++ l2) k = oget (lastVal l2 k) (lastVal l1 k) := by
  simp only [lastVal, List.foldl_append]
  exact foldl_lastVal l2 k _

theorem lastVal_eq_none {κ β : Type} [DecidableEq κ] (l : List (κ × β)) (k : κ)
    (h : ∀ kv ∈ l, kv.1 ≠ k) : lastVal l k = none := by
  induction l with
  | nil => rfl
  | cons a tl ih =>
    rw [lastVal_cons, ih (fun kv hm => h kv (List.mem_cons_of_mem a hm)),
        if_neg (h a (List.mem_cons_self a tl))]
    rfl

theorem lastVal_isSome_of_mem {κ β : Type} [DecidableEq κ] (l : List (κ × β)) (kv : κ × β)
    (h : kv ∈ l) : (lastVal l kv.1).isSome := by
  induction l with
  | nil => cases h
  | cons a tl ih =>
    rw [lastVal_cons]
    rcases List.mem_cons.mp h with h3 | h3
    · subst h3
      exact oget_isSome_of_right _ _ (by simp)
    · exact oget_isSome_of_left _ _ (ih h3)

theorem applyWrites_eval {κ β : Type} [DecidableEq κ] (l : List (κ × β)) (f : κ → Option β)
    (k : κ) : applyWrites l f k = oget (lastVal l k) (f k) := by
  induction l generalizing f with
  | nil => rfl
  | cons kv tl ih =>
    show applyWrites tl (updMap f kv.1 kv.2) k = _
    rw [ih, lastVal_cons, oget_assoc]
    congr 1
    by_cases h : kv.1 = k
    · subst h
      simp [updMap, oget]
    · simp [updMap, oget, if_neg (Ne.symm h), h]

theorem applyWrites_append {κ β : Type} [DecidableEq κ] (l1 l2 : List (κ × β))
    (f : κ → Option β) : applyWrites (l1 ++ l2) f = applyWrites l2 (applyWrites l1 f) := by
  simp only [applyWrites, List.foldl_append]

theorem applyWrites_nil {κ β : Type} [DecidableEq κ] (f : κ → Option β) :
    applyWrites [] f = f := rfl

theorem mem_addOnce_self {α : Type} [DecidableEq α] (l : List α) (a : α) :
    a ∈ addOnce l a := by
  unfold addOnce
  split_ifs with h
  · exact h
  · simp

theorem mem_addOnce_of_mem {α : Type} [DecidableEq α] (l : List α) (a b : α) (h : b ∈ l) :
    b ∈ addOnce l a := by
  unfold addOnce
  split_ifs
  · exact h
  · simp [h]

theorem mem_addOnce_iff {α : Type} [DecidableEq α] (l : List α) (a b : α) :
    b ∈ addOnce l a ↔ b = a ∨ b ∈ l := by
  unfold addOnce
  split_ifs with h
  · constructor
    · exact Or.inr
    · rintro (rfl | h2)
      · exact h
      · exact h2
  · simp [List.mem_append, or_comm]

theorem addOnce_nodup {α : Type} [DecidableEq α] (l : List α) (a : α) (h : l.Nodup) :
    (addOnce l a).Nodup := by
  unfold addOnce
  split_ifs with hm
  · exact h
  · simp [List.nodup_append, h, hm]

theorem dlookup_append {κ β : Type} [DecidableEq κ] (l1 l2 : List (κ × β)) (k : κ) :
    dlookup (l1 ++ l2) k = oget (dlookup l1 k) (dlookup l2 k) := by
  induction l1 with
  | nil => rfl
  | cons kv tl ih =>
    show (if kv.1 = k then some kv.2 else dlookup (tl ++ l2) k) = _
    by_cases h : kv.1 = k <;> simp [dlookup, h, ih, oget]

/-! Invariant preservation along collect_geo_data. -/

theorem collect0_inv : CollectInv collect0 := by
  refine ⟨?_, ?_, ?_, ?_, ?_, ?_, ?_⟩ <;> simp [collect0]

theorem collectTown_ok (acc : Collect) (r : Row) (acc1 : Collect)
    (h : collectTown acc r = .ok acc1) (hinv : CollectInv acc) :
    CollectInv acc1 ∧ acc1.street_names = acc.street_names ∧
    acc1.stm_keys = acc.stm_keys ∧ acc1.street_town_map = acc.street_town_map ∧
    (∀ x ∈ acc.town_codes, x ∈ acc1.town_codes) ∧
    (match r.kodCastiObce with
     | none => True
     | some s => s = "" ∨ ∃ c, pyInt s = some c ∧ c ∈ acc1.town_codes) := by
  obtain ⟨hdata, hsub, hmapc, hempty, hnc, hns, hnk⟩ := hinv
  unfold collectTown at h
  cases hko : r.kodCastiObce with
  | none =>
    rw [hko] at h
    cases h
    exact ⟨⟨hdata, hsub, hmapc, hempty, hnc, hns, hnk⟩, rfl, rfl, rfl, fun x hx => hx, trivial⟩
  | some s =>
    rw [hko] at h
    simp only [] at h
    by_cases hs : s = ""
    · rw [if_pos hs] at h
      cases h
      exact ⟨⟨hdata, hsub, hmapc, hempty, hnc, hns, hnk⟩, rfl, rfl, rfl, fun x hx => hx,
        Or.inl hs⟩
    · rw [if_neg hs] at h
      cases hp : pyInt s with
      | none =>
        rw [hp] at h
        cases h
      | some c =>
        rw [hp] at h
        cases h
        refine ⟨⟨?_, hsub, ?_, hempty, addOnce_nodup _ _ hnc, hns, hnk⟩, rfl, rfl, rfl,
          fun x hx => mem_addOnce_of_mem _ _ _ hx,
          Or.inr ⟨c, hp, mem_addOnce_self _ _⟩⟩
        · intro c' hc'
          by_cases hl : (dlookup acc.town_data_map c).isSome
          · rw [if_pos hl]
            rcases (mem_addOnce_iff _ _ _).mp hc' with rfl | hold
            · exact hl
            · exact hdata c' hold
          · rw [if_neg hl]
            rcases (mem_addOnce_iff _ _ _).mp hc' with rfl | hold
            · rw [dlookup_append, Option.not_isSome_iff_eq_none.mp hl]
              simp [dlookup, oget]
            · rw [dlookup_append]
              exact oget_isSome_of_left _ _ (hdata c' hold)
        · intro s' c'' hc''
          exact mem_addOnce_of_mem _ _ _ (hmapc s' c'' hc'')

theorem collectStreet_ok (acc1 : Collect) (r : Row) (acc2 : Collect)
    (h : collectStreet acc1 r = .ok acc2) (hinv : CollectInv acc1)
    (hcode : match r.kodCastiObce with
             | none => True
             | some s => s = "" ∨ ∃ c, pyInt s = some c ∧ c ∈ acc1.town_codes) :
    CollectInv acc2 := by
  obtain ⟨hdata, hsub, hmapc, hempty, hnc, hns, hnk⟩ := hinv
  unfold collectStreet at h
  by_cases hsn : pyStrip (r.nazevUlice.getD "") = ""
  · rw [if_pos hsn] at h
    cases h
    exact ⟨hdata, hsub, hmapc, hempty, hnc, hns, hnk⟩
  · rw [if_neg hsn] at h
    cases hko : r.kodCastiObce with
    | none =>
      rw [hko] at h
      cases h
      exact ⟨hdata, fun s hx => mem_addOnce_of_mem _ _ _ (hsub s hx), hmapc, hempty, hnc,
        addOnce_nodup _ _ hns, hnk⟩
    | some s =>
      rw [hko] at h
      simp only [] at h
      by_cases hs : s = ""
      · rw [if_pos hs] at h
        cases h
        exact ⟨hdata, fun s' hx => mem_addOnce_of_mem _ _ _ (hsub s' hx), hmapc, hempty, hnc,
          addOnce_nodup _ _ hns, hnk⟩
      · rw [if_neg hs] at h
        rw [hko] at hcode
        rcases hcode with hcode | ⟨c, hp, hc⟩
        · exact absurd hcode hs
        · rw [hp] at h
          cases h
          refine ⟨hdata, ?_, ?_, ?_, hnc, addOnce_nodup _ _ hns, addOnce_nodup _ _ hnk⟩
          · intro s' hx
            rcases (mem_addOnce_iff _ _ _).mp hx with rfl | hold
            · exact mem_addOnce_self _ _
            · exact mem_addOnce_of_mem _ _ _ (hsub s' hold)
          · intro s' c'' hc''
            simp only [] at hc''
            by_cases heq : s' = pyStrip (r.nazevUlice.getD "")
            · rw [if_pos heq] at hc''
              rcases Finset.mem_insert.mp hc'' with rfl | hold
              · exact hc
              · exact hmapc s' c'' hold
            · rw [if_neg heq] at hc''
              exact hmapc s' c'' hc''
          · intro s' hx
            have hnsn : s' ≠ pyStrip (r.nazevUlice.getD "") := by
              intro heq
              exact hx (heq ▸ mem_addOnce_self _ _)
            have hout : s' ∉ acc1.stm_keys := by
              intro hin
              exact hx (mem_addOnce_of_mem _ _ _ hin)
            simp only []
            rw [if_neg hnsn]
            exact hempty s' hout

theorem collectRow_inv (acc : Collect) (r : Row) (acc2 : Collect)
    (h : collectRow acc r = .ok acc2) (hinv : CollectInv acc) : CollectInv acc2 := by
  unfold collectRow at h
  rcases hct : collectTown acc r with u | acc1
  · rw [hct] at h
    cases h
  · rw [hct] at h
    obtain ⟨inv1, -, -, -, -, hcode⟩ := collectTown_ok acc r acc1 hct hinv
    exact collectStreet_ok acc1 r acc2 h inv1 hcode

theorem collectRows_inv (rows : List Row) (acc acc' : Collect)
    (h : collectRows acc rows = .ok acc') (hinv : CollectInv acc) : CollectInv acc' := by
  induction rows generalizing acc with
  | nil =>
    cases h
    exact hinv
  | cons r rs ih =>
    unfold collectRows at h
    rcases hcr : collectRow acc r with u | acc1
    · rw [hcr] at h
      cases h
    · rw [hcr] at h
      exact ih acc1 h (collectRow_inv acc r acc1 hcr hinv)

theorem collect_inv (rows : List Row) (d : Collect)
    (h : collect_geo_data rows = .ok d) : CollectInv d :=
  collectRows_inv rows collect0 d h collect0_inv

/-! Store-component preservation and pointwise evaluation of the pipeline. -/

theorem towns_after_streets (d : Collect) (tc : List Int) (S : Store) :
    (process_streets d tc S).store.towns = S.towns := rfl

theorem numbers_after_streets (d : Collect) (tc : List Int) (S : Store) :
    (process_streets d tc S).store.numbers = S.numbers := rfl

theorem streets_after_towns (d : Collect) (S : Store) :
    (process_towns d S).store.streets = S.streets := rfl

theorem numbers_after_towns (d : Collect) (S : Store) :
    (process_towns d S).store.numbers = S.numbers := rfl

theorem chunk_towns_eq (T : ℚ → ℚ → ℚ × ℚ) (tc : List Int) (sc : List String)
    (c : List Row) (S : Store) (st : Stats) :
    (outStore (process_number_chunk T tc sc c S st)).towns = S.towns := by
  cases hb : buildChunk T tc sc c <;> simp [process_number_chunk, hb, outStore]

theorem chunk_streets_eq (T : ℚ → ℚ → ℚ × ℚ) (tc : List Int) (sc : List String)
    (c : List Row) (S : Store) (st : Stats) :
    (outStore (process_number_chunk T tc sc c S st)).streets = S.streets := by
  cases hb : buildChunk T tc sc c <;> simp [process_number_chunk, hb, outStore]

theorem chunks_towns_eq (T : ℚ → ℚ → ℚ × ℚ) (tc : List Int) (sc : List String)
    (cs : List (List Row)) : ∀ (S : Store) (st : Stats),
    (outStore (processChunks T tc sc cs S st)).towns = S.towns := by
  induction cs with
  | nil => intro S st; rfl
  | cons c cs ih =>
    intro S st
    cases hb : buildChunk T tc sc c with
    | error u => simp [processChunks, process_number_chunk, hb, outStore]
    | ok nds => simp [processChunks, process_number_chunk, hb, ih]

theorem chunks_streets_eq (T : ℚ → ℚ → ℚ × ℚ) (tc : List Int) (sc : List String)
    (cs : List (List Row)) : ∀ (S : Store) (st : Stats),
    (outStore (processChunks T tc sc cs S st)).streets = S.streets := by
  induction cs with
  | nil => intro S st; rfl
  | cons c cs ih =>
    intro S st
    cases hb : buildChunk T tc sc c with
    | error u => simp [processChunks, process_number_chunk, hb, outStore]
    | ok nds => simp [processChunks, process_number_chunk, hb, ih]

theorem lastVal_filter_isNone (nds : List NumberData) (g : Int → Option NumberRec) (k : Int) :
    lastVal ((nds.filter (fun n => (g n.code).isNone)).map (fun n => (n.code, toNumberRec n))) k
      = if (g k).isNone then lastVal (nds.map (fun n => (n.code, toNumberRec n))) k
        else none := by
  induction nds with
  | nil => simp [lastVal]
  | cons a tl ih =>
    by_cases hp : (g a.code).isNone
    · rw [List.filter_cons_of_pos (by simpa using hp), List.map_cons, lastVal_cons, ih,
          List.map_cons, lastVal_cons]
      by_cases hk : a.code = k
      · have hq : (g k).isNone := hk ▸ hp
        simp [hk, hq]
      · by_cases hq : (g k).isNone <;> simp [hk, hq, oget_none_right]
    · rw [List.filter_cons_of_neg (by simpa using hp), ih, List.map_cons, lastVal_cons]
      by_cases hk : a.code = k
      · have hq : ¬ (g k).isNone := fun hh => hp (hk ▸ hh)
        simp [hk, hq]
      · by_cases hq : (g k).isNone <;> simp [hk, hq, oget_none_right]

theorem lastVal_filter_isSome (nds : List NumberData) (g : Int → Option NumberRec) (k : Int) :
    lastVal ((nds.filter (fun n => (g n.code).isSome)).map (fun n => (n.code, toNumberRec n))) k
      = if (g k).isSome then lastVal (nds.map (fun n => (n.code, toNumberRec n))) k
        else none := by
  induction nds with
  | nil => simp [lastVal]
  | cons a tl ih =>
    by_cases hp : (g a.code).isSome
    · rw [List.filter_cons_of_pos (by simpa using hp), List.map_cons, lastVal_cons, ih,
          List.map_cons, lastVal_cons]
      by_cases hk : a.code = k
      · have hq : (g k).isSome := hk ▸ hp
        simp [hk, hq]
      · by_cases hq : (g k).isSome <;> simp [hk, hq, oget_none_right]
    · rw [List.filter_cons_of_neg (by simpa using hp), ih, List.map_cons, lastVal_cons]
      by_cases hk : a.code = k
      · have hq : ¬ (g k).isSome := fun hh => hp (hk ▸ hh)
        simp [hk, hq]
      · by_cases hq : (g k).isSome <;> simp [hk, hq, oget_none_right]

theorem chunk_split (nds : List NumberData) (g : Int → Option NumberRec) (k : Int) :
    oget
      (lastVal ((nds.filter (fun n => (g n.code).isSome)).map
        (fun n => (n.code, toNumberRec n))) k)
      (lastVal ((nds.filter (fun n => (g n.code).isNone)).map
        (fun n => (n.code, toNumberRec n))) k)
      = lastVal (nds.map (fun n => (n.code, toNumberRec n))) k := by
  rw [lastVal_filter_isNone, lastVal_filter_isSome]
  cases hg : g k
  · simp [oget]
  · simp [oget_none_right]

theorem chunk_numbers_eval (T : ℚ → ℚ → ℚ × ℚ) (tc : List Int) (sc : List String)
    (c : List Row) (S : Store) (st : Stats) (k : Int) :
    (outStore (process_number_chunk T tc sc c S st)).numbers k =
      oget (lastVal (chunkWrites T tc sc c) k) (S.numbers k) := by
  cases hb : buildChunk T tc sc c with
  | error u => simp [process_number_chunk, hb, chunkWrites, outStore, lastVal, oget]
  | ok nds =>
    simp only [process_number_chunk, hb, chunkWrites, outStore]
    rw [applyWrites_eval, applyWrites_eval, ← oget_assoc, chunk_split]

theorem chunks_numbers_eval (T : ℚ → ℚ → ℚ × ℚ) (tc : List Int) (sc : List String)
    (cs : List (List Row)) : ∀ (S : Store) (st : Stats) (k : Int),
    (outStore (processChunks T tc sc cs S st)).numbers k =
      oget (lastVal (chunksWritesAll T tc sc cs) k) (S.numbers k) := by
  induction cs with
  | nil => intro S st k; simp [processChunks, outStore, chunksWritesAll, lastVal, oget]
  | cons c cs ih =>
    intro S st k
    cases hb : buildChunk T tc sc c with
    | error u =>
      simp [processChunks, process_number_chunk, hb, outStore, chunksWritesAll, lastVal, oget]
    | ok nds =>
      have hw : chunksWritesAll T tc sc (c :: cs) =
          chunkWrites T tc sc c ++ chunksWritesAll T tc sc cs := by
        simp [chunksWritesAll, hb]
      simp only [processChunks, process_number_chunk, hb]
      rw [ih, hw, lastVal_append, oget_assoc]
      congr 1
      show (applyWrites _ (applyWrites _ S.numbers)) k = _
      rw [applyWrites_eval, applyWrites_eval, ← oget_assoc, chunk_split]
      simp [chunkWrites, hb]

theorem length_filterMap_all_some {α β : Type} (l : List α) (f : α → Option β)
    (h : ∀ a ∈ l, (f a).isSome) : (l.filterMap f).length = l.length := by
  induction l with
  | nil => rfl
  | cons a tl ih =>
    obtain ⟨b, hb⟩ := Option.isSome_iff_exists.mp (h a (List.mem_cons_self a tl))
    rw [List.filterMap_cons, hb]
    simp [ih (fun x hx => h x (List.mem_cons_of_mem a hx))]

theorem lastVal_creates (missing : List Int) (dm : List (Int × TownRec)) (c : Int) :
    lastVal (missing.filterMap (fun c' => (dlookup dm c').map (fun td => (c', td)))) c =
      if c ∈ missing then dlookup dm c else none := by
  induction missing with
  | nil => simp [lastVal]
  | cons a tl ih =>
    rw [List.filterMap_cons]
    cases hda : dlookup dm a with
    | none =>
      simp only [hda, Option.map_none']
      rw [ih]
      by_cases hc : c = a
      · subst hc
        by_cases hct : c ∈ tl <;> simp [hct, hda]
      · simp [List.mem_cons, hc]
    | some td =>
      simp only [hda, Option.map_some']
      rw [lastVal_cons, ih]
      by_cases hc : a = c
      · subst hc
        by_cases hct : a ∈ tl <;> simp [hct, hda, oget]
      · simp [hc, List.mem_cons, Ne.symm hc, oget_none_right]

theorem process_towns_eval (d : Collect) (S : Store) (c : Int) :
    (process_towns d S).store.towns c =
      oget (S.towns c) (if c ∈ d.town_codes then dlookup d.town_data_map c else none) := by
  show applyWrites _ S.towns c = _
  rw [applyWrites_eval, lastVal_creates]
  cases hS : S.towns c with
  | some r =>
    have hnm : c ∉ d.town_codes.filter (fun c' => (S.towns c').isNone) := by
      simp [List.mem_filter, hS]
    rw [if_neg hnm]
    rfl
  | none =>
    by_cases hc : c ∈ d.town_codes
    · have hm : c ∈ d.town_codes.filter (fun c' => (S.towns c').isNone) := by
        simp [List.mem_filter, hS, hc]
      rw [if_pos hm, if_pos hc, oget_none_right]
      rfl
    · have hnm : c ∉ d.town_codes.filter (fun c' => (S.towns c').isNone) := by
        simp [List.mem_filter, hc]
      rw [if_neg hnm, if_neg hc]

theorem process_towns_present (d : Collect) (S : Store) (c : Int)
    (hdata : ∀ x ∈ d.town_codes, (dlookup d.town_data_map x).isSome)
    (hc : c ∈ d.town_codes) : ((process_towns d S).store.towns c).isSome := by
  rw [process_towns_eval, if_pos hc]
  exact oget_isSome_of_right _ _ (hdata c hc)

theorem process_towns_cache (d : Collect) (S : Store)
    (hdata : ∀ x ∈ d.town_codes, (dlookup d.town_data_map x).isSome) :
    (process_towns d S).cache = d.town_codes := by
  show d.town_codes.filter _ = _
  rw [List.filter_eq_self]
  intro c hc
  simp [hdata c hc]

theorem process_towns_created (d : Collect) (S : Store)
    (hdata : ∀ x ∈ d.town_codes, (dlookup d.town_data_map x).isSome) :
    (process_towns d S).created =
      (d.town_codes.filter (fun c => (S.towns c).isNone)).length := by
  show (List.filterMap _ _).length = _
  apply length_filterMap_all_some
  intro c hc
  have hcc : c ∈ d.town_codes := (List.mem_filter.mp hc).1
  simp [hdata c hcc]

theorem lastVal_map_const {κ β : Type} [DecidableEq κ] (l : List κ) (v : β) (k : κ) :
    lastVal (l.map (fun n => (n, v))) k = if k ∈ l then some v else none := by
  induction l with
  | nil => simp [lastVal]
  | cons a tl ih =>
    rw [List.map_cons, lastVal_cons, ih]
    by_cases hk : a = k
    · subst hk
      by_cases hm : a ∈ tl <;> simp [hm, oget]
    · simp [hk, List.mem_cons, Ne.symm hk, oget_none_right]

theorem streets_fold_eval (d : Collect) (tc : List Int) (keys : List String)
    (f : String → Option StreetRec) (s : String) (hk : keys.Nodup) :
    (keys.foldl (fun f s =>
      match f s with
      | some rec =>
          updMap f s ⟨rec.town_ids ∪ (d.street_town_map s).filter (fun c => c ∈ tc)⟩
      | none => f) f) s =
      if s ∈ keys then
        match f s with
        | some rec => some ⟨rec.town_ids ∪ (d.street_town_map s).filter (fun c => c ∈ tc)⟩
        | none => none
      else f s := by
  induction keys generalizing f with
  | nil => simp
  | cons a tl ih =>
    have hnd := List.nodup_cons.mp hk
    rw [List.foldl_cons, ih _ hnd.2]
    by_cases hs : s = a
    · subst hs
      rw [if_neg hnd.1, if_pos (List.mem_cons_self s tl)]
      cases hf : f s with
      | some rec => simp [hf, updMap]
      | none => simp [hf]
    · have g1s : (match f a with
          | some rec =>
              updMap f a ⟨rec.town_ids ∪ (d.street_town_map a).filter (fun c => c ∈ tc)⟩
          | none => f) s = f s := by
        cases hf : f a with
        | some rec => simp [hf, updMap, hs]
        | none => simp [hf]
      by_cases hm : s ∈ tl
      · rw [if_pos hm, if_pos (List.mem_cons_of_mem a hm), g1s]
      · rw [if_neg hm, if_neg (by simp [List.mem_cons, hs, hm]), g1s]

theorem process_streets_eval (d : Collect) (tc : List Int) (S : Store) (s : String)
    (hsub : ∀ x ∈ d.stm_keys, x ∈ d.street_names) (hnk : d.stm_keys.Nodup) :
    (process_streets d tc S).store.streets s =
      if s ∈ d.stm_keys then
        some ⟨(match S.streets s with | some r => r.town_ids | none => ∅) ∪
              (d.street_town_map s).filter (fun c => c ∈ tc)⟩
      else if s ∈ d.street_names then
        some (match S.streets s with | some r => r | none => ⟨∅⟩)
      else S.streets s := by
  have hf1 : ∀ x, (applyWrites ((d.street_names.filter
      (fun n => (S.streets n).isNone)).map (fun n => (n, StreetRec.mk ∅))) S.streets) x =
      if (S.streets x).isNone ∧ x ∈ d.street_names then some ⟨∅⟩ else S.streets x := by
    intro x
    rw [applyWrites_eval, lastVal_map_const]
    by_cases hx : x ∈ d.street_names.filter (fun n => (S.streets n).isNone)
    · have hx2 := List.mem_filter.mp hx
      rw [if_pos hx, if_pos ⟨by simpa using hx2.2, hx2.1⟩]
      rfl
    · rw [if_neg hx, if_neg (by
        rintro ⟨h1, h2⟩
        exact hx (List.mem_filter.mpr ⟨h2, by simpa using h1⟩))]
      rfl
  show (d.stm_keys.foldl (fun f s =>
      match f s with
      | some rec =>
          updMap f s ⟨rec.town_ids ∪ (d.street_town_map s).filter (fun c => c ∈ tc)⟩
      | none => f)
    (applyWrites ((d.street_names.filter (fun n => (S.streets n).isNone)).map
      (fun n => (n, StreetRec.mk ∅))) S.streets)) s = _
  rw [streets_fold_eval d tc d.stm_keys _ s hnk]
  by_cases hsk : s ∈ d.stm_keys
  · rw [if_pos hsk, if_pos hsk, hf1 s]
    have hsn : s ∈ d.street_names := hsub s hsk
    cases hS : S.streets s with
    | some r => simp [hS]
    | none => simp [hS, hsn]
  · rw [if_neg hsk, if_neg hsk, hf1 s]
    by_cases hsn : s ∈ d.street_names
    · cases hS : S.streets s with
      | some r => simp [hS, hsn]
      | none => simp [hS, hsn]
    · cases hS : S.streets s with
      | some r => simp [hS, hsn]
      | none => simp [hS, hsn]

theorem process_streets_present (d : Collect) (tc : List Int) (S : Store) (s : String)
    (hsub : ∀ x ∈ d.stm_keys, x ∈ d.street_names) (hnk : d.stm_keys.Nodup)
    (hs : s ∈ d.street_names) : ((process_streets d tc S).store.streets s).isSome := by
  rw [process_streets_eval d tc S s hsub hnk]
  by_cases h1 : s ∈ d.stm_keys
  · simp [h1]
  · cases hS : S.streets s <;> simp [h1, hs, hS]

theorem process_streets_created (d : Collect) (tc : List Int) (S : Store) :
    (process_streets d tc S).created =
      (d.street_names.filter (fun n => (S.streets n).isNone)).length := rfl

/-! File-level and archive-level pointwise evaluation. -/

theorem pcb_collect_error (T : ℚ → ℚ → ℚ × ℚ) (rows : List Row) (S : Store) (st : Stats)
    (h : collect_geo_data rows = .error ()) :
    process_csv_bulk T rows S st = .error (S, st) := by
  simp [process_csv_bulk, h]

theorem pcb_ok_unfold (T : ℚ → ℚ → ℚ × ℚ) (rows : List Row) (S : Store) (st : Stats)
    (d : Collect) (h : collect_geo_data rows = .ok d) :
    process_csv_bulk T rows S st =
      processChunks T (process_towns d S).cache d.street_names (chunksOf 10000 rows)
        (process_streets d (process_towns d S).cache (process_towns d S).store).store
        (addStreetStats (addTownStats st d.town_codes.length (process_towns d S).created)
          d.street_names.length
          (process_streets d (process_towns d S).cache (process_towns d S).store).created) := by
  simp [process_csv_bulk, h]

theorem pcb_towns_eval (T : ℚ → ℚ → ℚ × ℚ) (rows : List Row) (S : Store) (st : Stats)
    (c : Int) : (outStore (process_csv_bulk T rows S st)).towns c =
      oget (S.towns c) (fileTownWrite rows c) := by
  cases hcg : collect_geo_data rows with
  | error u =>
    cases u
    rw [pcb_collect_error T rows S st hcg]
    simp [outStore, fileTownWrite, hcg, oget_none_right]
  | ok d =>
    rw [pcb_ok_unfold T rows S st d hcg, chunks_towns_eq, towns_after_streets,
        process_towns_eval]
    simp [fileTownWrite, hcg]

theorem pcb_numbers_eval (T : ℚ → ℚ → ℚ × ℚ) (rows : List Row) (S : Store) (st : Stats)
    (k : Int) : (outStore (process_csv_bulk T rows S st)).numbers k =
      oget (lastVal (fileNumWrites T rows) k) (S.numbers k) := by
  cases hcg : collect_geo_data rows with
  | error u =>
    cases u
    rw [pcb_collect_error T rows S st hcg]
    simp [outStore, fileNumWrites, hcg, lastVal, oget]
  | ok d =>
    obtain ⟨hdata, -, -, -, -, -, -⟩ := collect_inv rows d hcg
    rw [pcb_ok_unfold T rows S st d hcg, chunks_numbers_eval, numbers_after_streets,
        numbers_after_towns, process_towns_cache d S hdata]
    simp [fileNumWrites, hcg]

theorem pcb_streets_eval (T : ℚ → ℚ → ℚ × ℚ) (rows : List Row) (S : Store) (st : Stats)
    (s : String) : (outStore (process_csv_bulk T rows S st)).streets s =
      match fileStreetTouch rows s with
      | some U =>
          some ⟨(match S.streets s with | some r => r.town_ids | none => ∅) ∪ U⟩
      | none => S.streets s := by
  cases hcg : collect_geo_data rows with
  | error u =>
    cases u
    rw [pcb_collect_error T rows S st hcg]
    simp [outStore, fileStreetTouch, hcg]
  | ok d =>
    obtain ⟨hdata, hsub, hmapc, hempty, -, -, hnk⟩ := collect_inv rows d hcg
    rw [pcb_ok_unfold T rows S st d hcg, chunks_streets_eq,
        process_streets_eval d _ _ s hsub hnk, process_towns_cache d S hdata,
        streets_after_towns]
    have hfil : (d.street_town_map s).filter (fun c => c ∈ d.town_codes) =
        d.street_town_map s := by
      apply Finset.filter_true_of_mem
      intro x hx
      exact hmapc s x hx
    rw [hfil]
    simp only [fileStreetTouch, hcg]
    by_cases h1 : s ∈ d.stm_keys
    · simp [h1]
    · by_cases h2 : s ∈ d.street_names
      · simp only [h1, h2, if_neg, if_pos, if_false, if_true]
        cases hS : S.streets s with
        | some r =>
          cases r
          simp
        | none => simp
      · simp [h1, h2]

theorem run_towns_eval (T : ℚ → ℚ → ℚ × ℚ) (files : List (List Row)) :
    ∀ (S : Store) (st : Stats) (c : Int),
    (run_files T files S st).1.towns c = oget (S.towns c) (runTownWrite files c) := by
  induction files with
  | nil =>
    intro S st c
    simp [run_files, runTownWrite, oget_none_right]
  | cons f fs ih =>
    intro S st c
    cases h : process_csv_bulk T f S st with
    | ok p =>
      obtain ⟨S1, st1⟩ := p
      have hS1 : S1.towns c = oget (S.towns c) (fileTownWrite f c) := by
        have h2 := pcb_towns_eval T f S st c
        rw [h] at h2
        exact h2
      simp only [run_files, h]
      rw [ih, hS1, oget_assoc]
      simp [runTownWrite]
    | error p =>
      obtain ⟨S1, st1⟩ := p
      have hS1 : S1.towns c = oget (S.towns c) (fileTownWrite f c) := by
        have h2 := pcb_towns_eval T f S st c
        rw [h] at h2
        exact h2
      simp only [run_files, h]
      rw [ih, hS1, oget_assoc]
      simp [runTownWrite]

theorem run_numbers_eval (T : ℚ → ℚ → ℚ × ℚ) (files : List (List Row)) :
    ∀ (S : Store) (st : Stats) (k : Int),
    (run_files T files S st).1.numbers k = oget (runNumWrite T files k) (S.numbers k) := by
  induction files with
  | nil =>
    intro S st k
    simp [run_files, runNumWrite, oget]
  | cons f fs ih =>
    intro S st k
    cases h : process_csv_bulk T f S st with
    | ok p =>
      obtain ⟨S1, st1⟩ := p
      have hS1 : S1.numbers k = oget (lastVal (fileNumWrites T f) k) (S.numbers k) := by
        have h2 := pcb_numbers_eval T f S st k
        rw [h] at h2
        exact h2
      simp only [run_files, h]
      rw [ih, hS1, ← oget_assoc]
      simp [runNumWrite]
    | error p =>
      obtain ⟨S1, st1⟩ := p
      have hS1 : S1.numbers k = oget (lastVal (fileNumWrites T f) k) (S.numbers k) := by
        have h2 := pcb_numbers_eval T f S st k
        rw [h] at h2
        exact h2
      simp only [run_files, h]
      rw [ih, hS1, ← oget_assoc]
      simp [runNumWrite]

theorem run_streets_eval (T : ℚ → ℚ → ℚ × ℚ) (files : List (List Row)) :
    ∀ (S : Store) (st : Stats) (s : String),
    (run_files T files S st).1.streets s =
      match runStreetTouch files s with
      | some U =>
          some ⟨(match S.streets s with | some r => r.town_ids | none => ∅) ∪ U⟩
      | none => S.streets s := by
  induction files with
  | nil =>
    intro S st s
    simp [run_files, runStreetTouch]
  | cons f fs ih =>
    intro S st s
    have key : ∀ (S1 : Store) (st1 : Stats),
        S1.streets s = (match fileStreetTouch f s with
          | some U =>
              some ⟨(match S.streets s with | some r => r.town_ids | none => ∅) ∪ U⟩
          | none => S.streets s) →
        (run_files T fs S1 st1).1.streets s =
          match runStreetTouch (f :: fs) s with
          | some U =>
              some ⟨(match S.streets s with | some r => r.town_ids | none => ∅) ∪ U⟩
          | none => S.streets s := by
      intro S1 st1 hS1
      rw [ih]
      cases ht1 : fileStreetTouch f s with
      | none =>
        rw [ht1] at hS1
        cases ht2 : runStreetTouch fs s with
        | none => simp [runStreetTouch, ht1, ht2, hS1]
        | some V => simp [runStreetTouch, ht1, ht2, hS1]
      | some U =>
        rw [ht1] at hS1
        cases ht2 : runStreetTouch fs s with
        | none => simp [runStreetTouch, ht1, ht2, hS1]
        | some V =>
          simp only [runStreetTouch, ht1, ht2, hS1]
          rw [Finset.union_assoc]
    cases h : process_csv_bulk T f S st with
    | ok p =>
      obtain ⟨S1, st1⟩ := p
      have h2 := pcb_streets_eval T f S st s
      rw [h] at h2
      simp only [run_files, h]
      exact key S1 _ h2
    | error p =>
      obtain ⟨S1, st1⟩ := p
      have h2 := pcb_streets_eval T f S st s
      rw [h] at h2
      simp only [run_files, h]
      exact key S1 _ h2

/-- C2, amended part: the modelled date value reached before formatting. -/
theorem target_date_val (y m : Nat) (h1 : 1 ≤ m) (h2 : m ≤ 12) (_hy : 2 ≤ y) (d : Nat) :
    minusOneDay (replaceDay1 (minusOneDay (replaceDay1 ⟨y, m, d⟩))) =
      ⟨(twoMonthsBack y m).1, (twoMonthsBack y m).2,
        daysInMonth (twoMonthsBack y m).1 (twoMonthsBack y m).2⟩ := by
  interval_cases m <;>
    simp +decide [replaceDay1, minusOneDay, twoMonthsBack, daysInMonth]

/-- C2 (corrected): for a valid current date (year at least 2 so that the Python
date arithmetic is defined), the download URL is the fixed host and path followed
by the strftime rendering of the last day of the month two months before the
current month, then the archive suffix. -/
theorem C2_download_url_amended (today : PyDate) (hv : today.Valid) (hy : 2 ≤ today.year) :
    calculate_target_date today =
      strftimeYmd ⟨(twoMonthsBack today.year today.month).1,
                   (twoMonthsBack today.year today.month).2,
                   daysInMonth (twoMonthsBack today.year today.month).1
                     (twoMonthsBack today.year today.month).2⟩ ∧
    download_url today =
      "https://vdp.cuzk.gov.cz/vymenny_format/csv/" ++ calculate_target_date today ++
        "_OB_ADR_csv.zip" := by
  obtain ⟨y, m, d⟩ := today
  obtain ⟨h1, h2, -, -, -⟩ := hv
  exact ⟨congrArg strftimeYmd (target_date_val y m h1 h2 hy d), rfl⟩

/-- C2, counterexample: on 2026-10-12 the URL date component is 20260831, the last
day of August 2026, and not the first-of-month rendering 20260801 the claim
describes. -/
theorem C2_counterexample :
    calculate_target_date ⟨2026, 10, 12⟩ = "20260831" ∧
    calculate_target_date ⟨2026, 10, 12⟩ ≠ strftimeYmd ⟨2026, 8, 1⟩ := by
  constructor <;> decide

/-- C2, witness for the amended theorem at 2026-10-12. -/
theorem C2_witness :
    calculate_target_date ⟨2026, 10, 12⟩ =
      strftimeYmd ⟨2026, 8, daysInMonth 2026 8⟩ ∧
    download_url ⟨2026, 10, 12⟩ =
      "https://vdp.cuzk.gov.cz/vymenny_format/csv/" ++
        calculate_target_date ⟨2026, 10, 12⟩ ++ "_OB_ADR_csv.zip" := by
  have h := C2_download_url_amended ⟨2026, 10, 12⟩ (by unfold PyDate.Valid; decide)
    (by norm_num)
  exact ⟨h.1, h.2⟩

/-- C10 (confirmed): the computed progress field is total: for every files and
file_count value, including zero and negative file counts, a string of the shape
files / file_count (percent) is produced, and a non-positive file count degrades
the percentage to 0 instead of dividing by zero. -/
theorem C10_progress_total (files file_count : Int) :
    (∃ p : String, compute_progress files file_count =
        toString files ++ " / " ++ toString file_count ++ " (" ++ p ++ "%)") ∧
    (file_count ≤ 0 →
      compute_progress files file_count =
        toString files ++ " / " ++ toString file_count ++ " (0%)") := by
  constructor
  · exact ⟨_, rfl⟩
  · intro h
    have hnot : ¬ (0 : Int) < file_count := by omega
    have h0 : fmtPct 0 = "0" := by
      have hr : round (0 : ℚ) = 0 := round_zero
      rw [fmtPct, hr]
      rfl
    simp only [compute_progress, if_neg hnot, h0, String.append_assoc]
    rw [show ("0" : String) ++ "%)" = "0%)" from rfl,
        show (" (" : String) ++ "0%)" = " (0%)" from rfl]

/-- C10, witness: a zero file count yields the guarded zero-percent string. -/
theorem C10_witness : compute_progress 3 0 = "3 / 0 (0%)" := by
  have h := (C10_progress_total 3 0).2 (by norm_num)
  exact h.trans (by rfl)

/-- C5, counterexample: the startup recovery applied to a freshly created running
log yields state failed with end_date still unset, so the operation does not
preserve the claimed invariant that a failed state implies a set end date. -/
theorem C5_counterexample :
    (register_hook_recover (log_create "20260831" 0)).state = .failed ∧
    (register_hook_recover (log_create "20260831" 0)).end_date = none := by
  constructor <;> rfl

/-- C5 (corrected): every modelled log operation preserves the amended invariant
(running implies end_date unset, done implies end_date set); the two in-run
failure and completion writes do set end_date, while the startup recovery forces
a running log to failed without touching end_date or any counter field. -/
theorem C5_log_invariant_amended (log : LogRec) (h : LogInvAmended log) :
    (∀ nm t, LogInvAmended (log_create nm t)) ∧
    (∀ n, LogInvAmended (log_set_file_count n log)) ∧
    (∀ st, LogInvAmended (log_checkpoint st log)) ∧
    (∀ t files, LogInvAmended (log_finish_done t files log) ∧
      (log_finish_done t files log).end_date = some t) ∧
    (∀ t msg, LogInvAmended (log_finish_failed t msg log) ∧
      (log_finish_failed t msg log).end_date = some t) ∧
    (LogInvAmended (register_hook_recover log) ∧
      (register_hook_recover log).counters = log.counters ∧
      (register_hook_recover log).file_count = log.file_count ∧
      (register_hook_recover log).end_date = log.end_date ∧
      (log.state = .running → (register_hook_recover log).state = .failed)) := by
  obtain ⟨hr, hd⟩ := h
  refine ⟨?_, ?_, ?_, ?_, ?_, ?_⟩
  · intro nm t
    exact ⟨fun _ => rfl, by simp [log_create]⟩
  · intro n
    exact ⟨fun hs => hr hs, fun hs => hd hs⟩
  · intro st
    exact ⟨fun hs => hr hs, fun hs => hd hs⟩
  · intro t files
    refine ⟨⟨?_, ?_⟩, rfl⟩
    · intro hs
      simp [log_finish_done] at hs
    · intro _
      simp [log_finish_done]
  · intro t msg
    refine ⟨⟨?_, ?_⟩, rfl⟩
    · intro hs
      simp [log_finish_failed] at hs
    · intro hs
      simp [log_finish_failed] at hs
  · unfold register_hook_recover
    by_cases hs : log.state = .running
    · simp only [hs, if_pos rfl]
      refine ⟨⟨?_, ?_⟩, rfl, rfl, rfl, fun _ => rfl⟩
      · intro habs
        simp at habs
      · intro habs
        simp at habs
    · rw [if_neg hs]
      exact ⟨⟨hr, hd⟩, rfl, rfl, rfl, fun hrun => absurd hrun hs⟩

/-- C5, witness: the amended theorem applied to a freshly created log. -/
theorem C5_witness :
    (register_hook_recover (log_create "x" 5)).counters = (log_create "x" 5).counters ∧
    (register_hook_recover (log_create "x" 5)).state = .failed := by
  have h := C5_log_invariant_amended (log_create "x" 5)
    ⟨fun _ => rfl, by simp [log_create]⟩
  obtain ⟨-, -, -, -, -, hrec⟩ := h
  exact ⟨hrec.2.1, hrec.2.2.2.2 rfl⟩

/-- C6 (confirmed): the coordinate conversion is total: when either input is
missing, empty or unparseable (its parse is none) the result is exactly (0, 0)
with no exception and no warning side channel, and when both parse the result is
the latitude-longitude swap of the projection of the parsed pair. -/
theorem C6_convert_total (T : ℚ → ℚ → ℚ × ℚ) (x y : Option String) :
    ((x.bind pyFloat = none ∨ y.bind pyFloat = none) → convert_to_gps T x y = (0, 0)) ∧
    (∀ a b : ℚ, x.bind pyFloat = some a → y.bind pyFloat = some b →
      convert_to_gps T x y = ((T a b).2, (T a b).1)) := by
  constructor
  · intro h
    rcases hx : x.bind pyFloat with - | a
    · simp [convert_to_gps, hx]
    · rcases hy : y.bind pyFloat with - | b
      · simp [convert_to_gps, hx, hy]
      · rcases h with h | h
        · exact absurd hx (by rw [h]; simp)
        · exact absurd hy (by rw [h]; simp)
  · intro a b ha hb
    simp [convert_to_gps, ha, hb]

/-- C6, witness: an unparseable coordinate degrades to the zero sentinel, and a
parsed pair goes through the sample projection with the latitude first. -/
theorem C6_witness :
    convert_to_gps (fun a b => (a + b, a - b)) (some "abc") (some "1") = (0, 0) ∧
    convert_to_gps (fun a b => (a + b, a - b)) (some "4") (some "3") = (1, 7) := by
  constructor
  · exact (C6_convert_total (fun a b => (a + b, a - b)) (some "abc") (some "1")).1
      (Or.inl rfl)
  · have h := (C6_convert_total (fun a b => (a + b, a - b)) (some "4") (some "3")).2
      ((4 : ℕ) : ℚ) ((3 : ℕ) : ℚ) rfl rfl
    rw [h]
    norm_num

/-- C1, counterexample: a file holding a malformed row (non-integer town code)
followed by a good row is abandoned whole: town 7 of the good row is never
created, the warning counter is 1, while the good row alone would create town 7.
Recovery is therefore not at row granularity. -/
theorem C1_counterexample :
    (run_files sampleT [[rowBadTown, rowGoodTown]] emptyStore stats0).1.towns 7 = none ∧
    (run_files sampleT [[rowBadTown, rowGoodTown]] emptyStore stats0).2.warnings = 1 ∧
    (run_files sampleT [[rowGoodTown]] emptyStore stats0).1.towns 7 =
      some ⟨"B", "100"⟩ := by
  refine ⟨?_, ?_, ?_⟩ <;> decide

/-- C1 (corrected): an exception while resolving a row (here, a collect-pass
parse failure such as a malformed town code) is recovered at file granularity,
not row granularity: the whole file is abandoned before any of its rows are
applied (the store is unchanged), the warning counter is incremented by one, and
processing continues with the next file of the archive. -/
theorem C1_row_error_amended (T : ℚ → ℚ → ℚ × ℚ) (f : List Row)
    (fs : List (List Row)) (S : Store) (st : Stats)
    (h : collect_geo_data f = .error ()) :
    process_csv_bulk T f S st = .error (S, st) ∧
    run_files T (f :: fs) S st =
      run_files T fs S { st with warnings := st.warnings + 1 } := by
  have h1 := pcb_collect_error T f S st h
  refine ⟨h1, ?_⟩
  simp only [run_files, h1]

/-- C1, witness: the amended theorem applied to the malformed-town-code file. -/
theorem C1_witness :
    process_csv_bulk sampleT [rowBadTown] emptyStore stats0 =
      .error (emptyStore, stats0) ∧
    run_files sampleT [[rowBadTown]] emptyStore stats0 =
      run_files sampleT [] emptyStore { stats0 with warnings := stats0.warnings + 1 } :=
  C1_row_error_amended sampleT [rowBadTown] [] emptyStore stats0 rfl

/-- C3, counterexample: the file whose only row has a good town code and a
malformed address-point code fails, yet the town row it created remains in the
store (warnings 1, files 0) — the failed file's partial writes are not rolled
back, contradicting the claimed per-file rollback. -/
theorem C3_counterexample :
    (run_files sampleT [[rowBadAdm]] emptyStore stats0).1.towns 5 =
      some ⟨"X", "123"⟩ ∧
    (run_files sampleT [[rowBadAdm]] emptyStore stats0).2.warnings = 1 ∧
    (run_files sampleT [[rowBadAdm]] emptyStore stats0).2.files = 0 := by
  refine ⟨?_, ?_, ?_⟩ <;> decide

/-- C3 (corrected): a file failure is recovered at file granularity with the
warning counter incremented and processing continuing with the next member, but
the failed file's partial writes are not rolled back: the loop resumes from the
store reached at the raise point, and in particular every town the failed file
collected is still present there. -/
theorem C3_no_rollback_amended (T : ℚ → ℚ → ℚ × ℚ) (f : List Row)
    (fs : List (List Row)) (S S1 : Store) (st st1 : Stats)
    (h : process_csv_bulk T f S st = .error (S1, st1)) :
    run_files T (f :: fs) S st =
      run_files T fs S1 { st1 with warnings := st1.warnings + 1 } ∧
    (∀ d, collect_geo_data f = .ok d → ∀ c ∈ d.town_codes, (S1.towns c).isSome) := by
  constructor
  · simp only [run_files, h]
  · intro d hd c hc
    obtain ⟨hdata, -, -, -, -, -, -⟩ := collect_inv f d hd
    have h2 := pcb_towns_eval T f S st c
    rw [h] at h2
    simp only [outStore] at h2
    rw [h2]
    apply oget_isSome_of_right
    simp only [fileTownWrite, hd, if_pos hc]
    exact hdata c hc

/-- C3, witness: the amended theorem applied to the bad-address-point file; the
town it created persists in the carried-over store. -/
theorem C3_witness :
    run_files sampleT [[rowBadAdm]] emptyStore stats0 =
      run_files sampleT [] S1bad { st1bad with warnings := st1bad.warnings + 1 } ∧
    (S1bad.towns 5).isSome := by
  have h := C3_no_rollback_amended sampleT [rowBadAdm] [] emptyStore S1bad stats0 st1bad rfl
  exact ⟨h.1, h.2 dBadAdm rfl 5 (by decide)⟩

/-- C4, counterexample: a run over a row carrying fresh name Nove and postal
code 222 for the already-stored town 5 leaves the stored row at its old values —
the town step performs no data refresh. -/
theorem C4_counterexample :
    (run_files sampleT [[rowTown5]] storeOld stats0).1.towns 5 = some ⟨"Old", "111"⟩ ∧
    get_town_name rowTown5 = "Nove" ∧ pyStrip (rowTown5.psc.getD "") = "222" ∧
    (some (⟨"Old", "111"⟩ : TownRec) ≠ some ⟨"Nove", "222"⟩) := by
  refine ⟨?_, ?_, ?_, ?_⟩ <;> decide

/-- C4 (corrected): for every row whose town code already exists in the store,
the town step leaves the existing Town row entirely unchanged — name and postal
code keep their stored values and no write occurs; the row is merely counted in
the towns_updated statistic. -/
theorem C4_town_no_refresh_amended (T : ℚ → ℚ → ℚ × ℚ) (rows : List Row) (S : Store)
    (st : Stats) (c : Int) (r : TownRec) (h : S.towns c = some r) :
    (outStore (process_csv_bulk T rows S st)).towns c = some r := by
  rw [pcb_towns_eval, h]
  rfl

/-- C4, witness: the stale stored town keeps name Old and postal code 111 across
a file that carries fresh data for its code. -/
theorem C4_witness :
    (outStore (process_csv_bulk sampleT [rowTown5] storeOld stats0)).towns 5 =
      some ⟨"Old", "111"⟩ :=
  C4_town_no_refresh_amended sampleT [rowTown5] storeOld stats0 5 ⟨"Old", "111"⟩ rfl

/-- C9 (confirmed): a row whose address-point code is absent or empty is skipped
for Number creation: building its number data yields no record, a chunk holding
just that row leaves the number table untouched and returns successfully with no
warning, and the collection pass that feeds town and street processing does not
read the address-point field at all. -/
theorem C9_no_adm_skip (T : ℚ → ℚ → ℚ × ℚ) (r : Row)
    (h : pyStrip (r.kodAdm.getD "") = "") :
    (∀ tcache scache, buildNumberData T tcache scache r = .ok none) ∧
    (∀ acc v, collectRow acc { r with kodAdm := v } = collectRow acc r) ∧
    (∀ tcache scache S st, process_number_chunk T tcache scache [r] S st =
        .ok (S, { st with rows := st.rows + 1 })) := by
  have hb : ∀ tcache scache, buildNumberData T tcache scache r = .ok none := by
    intro tc sc
    simp [buildNumberData, h]
  refine ⟨hb, fun acc v => rfl, ?_⟩
  intro tc sc S st
  simp only [process_number_chunk, buildChunk, hb]
  rfl

/-- C9, witness: the theorem applied to the sample row with no address-point
code but a town and a street. -/
theorem C9_witness :
    buildNumberData sampleT [] [] rowNoAdm = .ok none ∧
    process_number_chunk sampleT [] [] [rowNoAdm] emptyStore stats0 =
      .ok (emptyStore, { stats0 with rows := stats0.rows + 1 }) := by
  have h := C9_no_adm_skip sampleT rowNoAdm rfl
  exact ⟨h.1 [] [], h.2.2 [] [] emptyStore stats0⟩

/-! The street-to-town-codes map collected from a file, characterised against the
raw rows. -/

theorem collectTown_stm (acc : Collect) (r : Row) (acc1 : Collect)
    (h : collectTown acc r = .ok acc1) : acc1.street_town_map = acc.street_town_map := by
  unfold collectTown at h
  cases hko : r.kodCastiObce with
  | none =>
    rw [hko] at h
    cases h
    rfl
  | some s =>
    rw [hko] at h
    simp only [] at h
    by_cases hs : s = ""
    · rw [if_pos hs] at h
      cases h
      rfl
    · rw [if_neg hs] at h
      cases hp : pyInt s with
      | none =>
        rw [hp] at h
        cases h
      | some c =>
        rw [hp] at h
        cases h
        rfl

theorem collectRow_stm (acc : Collect) (r : Row) (acc1 : Collect)
    (h : collectRow acc r = .ok acc1) (s : String) (c : Int) :
    c ∈ acc1.street_town_map s ↔
      c ∈ acc.street_town_map s ∨ (rowStreet r = s ∧ s ≠ "" ∧ rowTownCodeOk r c) := by
  unfold collectRow at h
  rcases hct : collectTown acc r with u | accT
  · rw [hct] at h
    cases h
  rw [hct] at h
  simp only [] at h
  have hT := collectTown_stm acc r accT hct
  simp only [collectStreet] at h
  by_cases hsn : pyStrip (r.nazevUlice.getD "") = ""
  · rw [if_pos hsn] at h
    cases h
    rw [hT]
    constructor
    · exact Or.inl
    · rintro (hin | ⟨hrs, hne, -⟩)
      · exact hin
      · exact absurd (hsn ▸ hrs) (Ne.symm hne)
  · rw [if_neg hsn] at h
    cases hko : r.kodCastiObce with
    | none =>
      rw [hko] at h
      cases h
      rw [hT]
      constructor
      · exact Or.inl
      · rintro (hin | ⟨-, -, str, hstr, -, -⟩)
        · exact hin
        · rw [hko] at hstr
          cases hstr
    | some str =>
      rw [hko] at h
      simp only [] at h
      by_cases hstr : str = ""
      · rw [if_pos hstr] at h
        cases h
        rw [hT]
        constructor
        · exact Or.inl
        · rintro (hin | ⟨-, -, str2, hstr2, hne2, -⟩)
          · exact hin
          · rw [hko] at hstr2
            cases hstr2
            exact absurd hstr hne2
      · rw [if_neg hstr] at h
        cases hp : pyInt str with
        | none =>
          rw [hp] at h
          cases h
        | some c0 =>
          rw [hp] at h
          cases h
          simp only []
          rw [hT]
          by_cases hseq : s = pyStrip (r.nazevUlice.getD "")
          · rw [if_pos hseq]
            rw [Finset.mem_insert]
            constructor
            · rintro (rfl | hin)
              · exact Or.inr ⟨hseq.symm, fun habs => hsn (habs ▸ hseq).symm,
                  str, hko, hstr, hp⟩
              · exact Or.inl hin
            · rintro (hin | ⟨-, -, str2, hstr2, -, hp2⟩)
              · exact Or.inr hin
              · rw [hko] at hstr2
                cases hstr2
                rw [hp] at hp2
                cases hp2
                exact Or.inl rfl
          · rw [if_neg hseq]
            constructor
            · exact Or.inl
            · rintro (hin | ⟨hrs, -, -⟩)
              · exact hin
              · exact absurd hrs.symm hseq

theorem collectRows_stm (rows : List Row) : ∀ (acc d : Collect),
    collectRows acc rows = .ok d → ∀ (s : String) (c : Int),
    (c ∈ d.street_town_map s ↔ c ∈ acc.street_town_map s ∨
      ∃ r ∈ rows, rowStreet r = s ∧ s ≠ "" ∧ rowTownCodeOk r c) := by
  induction rows with
  | nil =>
    intro acc d h s c
    cases h
    simp
  | cons r rs ih =>
    intro acc d h s c
    unfold collectRows at h
    rcases hcr : collectRow acc r with u | acc1
    · rw [hcr] at h
      cases h
    · rw [hcr] at h
      rw [ih acc1 d h s c, collectRow_stm acc r acc1 hcr s c]
      constructor
      · rintro ((hin | hrow) | ⟨x, hx, hp⟩)
        · exact Or.inl hin
        · exact Or.inr ⟨r, List.mem_cons_self r rs, hrow⟩
        · exact Or.inr ⟨x, List.mem_cons_of_mem r hx, hp⟩
      · rintro (hin | ⟨x, hx, hp⟩)
        · exact Or.inl (Or.inl hin)
        · rcases List.mem_cons.mp hx with rfl | hx2
          · exact Or.inl (Or.inr hp)
          · exact Or.inr ⟨x, hx2, hp⟩

theorem collect_stm (rows : List Row) (d : Collect)
    (h : collect_geo_data rows = .ok d) (s : String) (c : Int) :
    c ∈ d.street_town_map s ↔
      ∃ r ∈ rows, rowStreet r = s ∧ s ≠ "" ∧ rowTownCodeOk r c := by
  rw [collectRows_stm rows collect0 d h s c]
  simp [collect0]

/-- C8 (confirmed): for a street name fresh to the store, a file's processing
sets the street's town_ids to exactly the collected street_town_map entry, which
is the set of the distinct parsed town codes of the rows naming that street; and
across any run, town associations are only ever added to a street, never
removed. -/
theorem C8_street_town_union (T : ℚ → ℚ → ℚ × ℚ) (rows : List Row) (S : Store)
    (st : Stats) (s : String) (d : Collect) (hok : collect_geo_data rows = .ok d)
    (hfresh : S.streets s = none) (hmem : s ∈ d.stm_keys) :
    ((outStore (process_csv_bulk T rows S st)).streets s =
      some ⟨d.street_town_map s⟩) ∧
    (∀ c : Int, c ∈ d.street_town_map s ↔
      ∃ r ∈ rows, rowStreet r = s ∧ s ≠ "" ∧ rowTownCodeOk r c) ∧
    (∀ (files : List (List Row)) (S' : Store) (st' : Stats) (s' : String)
      (r : StreetRec), S'.streets s' = some r →
      ∃ r2, (run_files T files S' st').1.streets s' = some r2 ∧
        r.town_ids ⊆ r2.town_ids) := by
  refine ⟨?_, fun c => collect_stm rows d hok s c, ?_⟩
  · rw [pcb_streets_eval]
    simp only [fileStreetTouch, hok, if_pos hmem, hfresh]
    simp
  · intro files S' st' s' r hr
    rw [run_streets_eval]
    cases ht : runStreetTouch files s' with
    | none =>
      refine ⟨r, ?_, subset_rfl⟩
      simp only [hr]
    | some U =>
      refine ⟨⟨r.town_ids ∪ U⟩, ?_, Finset.subset_union_left⟩
      simp only [hr]

/-- C8, witness: two rows naming street Main with town codes 1 and 2 yield a
street whose town set is exactly the two distinct codes. -/
theorem C8_witness :
    (outStore (process_csv_bulk sampleT [rUnion1, rUnion2] emptyStore stats0)).streets
      "Main" = some ⟨dUnion.street_town_map "Main"⟩ ∧
    dUnion.street_town_map "Main" = ({1, 2} : Finset Int) := by
  have h := C8_street_town_union sampleT [rUnion1, rUnion2] emptyStore stats0 "Main"
    dUnion rfl rfl (by decide)
  exact ⟨h.1, by decide⟩

/-! The second-run analysis: the store is a fixed point of re-running an
unchanged archive, and the second run's created counters vanish. -/

theorem store_ext (A B : Store) (ht : ∀ c, A.towns c = B.towns c)
    (hs : ∀ s, A.streets s = B.streets s) (hn : ∀ k, A.numbers k = B.numbers k) :
    A = B := by
  cases A
  cases B
  simp only [Store.mk.injEq]
  exact ⟨funext ht, funext hs, funext hn⟩

theorem run_twice_store (T : ℚ → ℚ → ℚ × ℚ) (files : List (List Row)) (S0 : Store) :
    (run_files T files (run_files T files S0 stats0).1 stats0).1 =
      (run_files T files S0 stats0).1 := by
  apply store_ext
  · intro c
    rw [run_towns_eval T files _ stats0 c, run_towns_eval T files S0 stats0 c,
        oget_self_right]
  · intro s
    rw [run_streets_eval T files _ stats0 s]
    cases ht : runStreetTouch files s with
    | none => rfl
    | some U =>
      rw [run_streets_eval T files S0 stats0 s, ht]
      simp only []
      rw [Finset.union_assoc, Finset.union_self]
  · intro k
    rw [run_numbers_eval T files _ stats0 k, run_numbers_eval T files S0 stats0 k,
        oget_absorb]

theorem addStats_zero (a : Stats) : addStats a stats0 = a := rfl

theorem addTownStats_shift (a b : Stats) (t c : Nat) :
    addTownStats (addStats a b) t c = addStats a (addTownStats b t c) := by
  simp [addTownStats, addStats, Nat.add_assoc]

theorem addStreetStats_shift (a b : Stats) (t c : Nat) :
    addStreetStats (addStats a b) t c = addStats a (addStreetStats b t c) := by
  simp [addStreetStats, addStats, Nat.add_assoc]

theorem chunk_shift (T : ℚ → ℚ → ℚ × ℚ) (tc : List Int) (sc : List String)
    (c : List Row) (S : Store) (a b : Stats) :
    process_number_chunk T tc sc c S (addStats a b) =
      mapStatsE (addStats a) (process_number_chunk T tc sc c S b) := by
  cases hb : buildChunk T tc sc c with
  | error u => simp [process_number_chunk, hb, mapStatsE]
  | ok nds => simp [process_number_chunk, hb, mapStatsE, addStats, Nat.add_assoc]

theorem processChunks_shift (T : ℚ → ℚ → ℚ × ℚ) (tc : List Int) (sc : List String)
    (cs : List (List Row)) : ∀ (S : Store) (a b : Stats),
    processChunks T tc sc cs S (addStats a b) =
      mapStatsE (addStats a) (processChunks T tc sc cs S b) := by
  induction cs with
  | nil =>
    intro S a b
    simp [processChunks, mapStatsE]
  | cons c cs ih =>
    intro S a b
    simp only [processChunks]
    rw [chunk_shift]
    cases hc : process_number_chunk T tc sc c S b with
    | error e =>
      obtain ⟨S', st'⟩ := e
      simp [mapStatsE]
    | ok p =>
      obtain ⟨S', st'⟩ := p
      simp only [mapStatsE]
      exact ih S' a st'

theorem pcb_shift (T : ℚ → ℚ → ℚ × ℚ) (f : List Row) (S : Store) (a b : Stats) :
    process_csv_bulk T f S (addStats a b) =
      mapStatsE (addStats a) (process_csv_bulk T f S b) := by
  cases hcg : collect_geo_data f with
  | error u =>
    cases u
    rw [pcb_collect_error T f S _ hcg, pcb_collect_error T f S b hcg]
    rfl
  | ok d =>
    rw [pcb_ok_unfold T f S _ d hcg, pcb_ok_unfold T f S b d hcg,
        addTownStats_shift, addStreetStats_shift, processChunks_shift]

theorem run_shift (T : ℚ → ℚ → ℚ × ℚ) (files : List (List Row)) :
    ∀ (S : Store) (a b : Stats),
    run_files T files S (addStats a b) =
      ((run_files T files S b).1, addStats a (run_files T files S b).2) := by
  induction files with
  | nil =>
    intro S a b
    rfl
  | cons f fs ih =>
    intro S a b
    simp only [run_files]
    rw [pcb_shift]
    cases hc : process_csv_bulk T f S b with
    | ok p =>
      obtain ⟨S', st'⟩ := p
      simp only [mapStatsE]
      have hbump : ({ addStats a st' with files := (addStats a st').files + 1 }) =
          addStats a ({ st' with files := st'.files + 1 }) := by
        simp [addStats, Nat.add_assoc]
      rw [hbump, ih]
    | error p =>
      obtain ⟨S', st'⟩ := p
      simp only [mapStatsE]
      have hbump : ({ addStats a st' with warnings := (addStats a st').warnings + 1 }) =
          addStats a ({ st' with warnings := st'.warnings + 1 }) := by
        simp [addStats, Nat.add_assoc]
      rw [hbump, ih]

theorem run_stats_decompose (T : ℚ → ℚ → ℚ × ℚ) (files : List (List Row)) (S : Store)
    (st : Stats) : run_files T files S st =
      ((run_files T files S stats0).1, addStats st (run_files T files S stats0).2) := by
  have h := run_shift T files S st stats0
  rwa [addStats_zero] at h

theorem runTownWrite_isSome (files : List (List Row)) (f : List Row) (c : Int)
    (hf : f ∈ files) (h : (fileTownWrite f c).isSome) :
    (runTownWrite files c).isSome := by
  induction files with
  | nil => cases hf
  | cons g fs ih =>
    rcases List.mem_cons.mp hf with rfl | hf2
    · exact oget_isSome_of_left _ _ h
    · exact oget_isSome_of_right _ _ (ih hf2)

theorem runNumWrite_isSome (T : ℚ → ℚ → ℚ × ℚ) (files : List (List Row)) (f : List Row)
    (k : Int) (hf : f ∈ files) (h : (lastVal (fileNumWrites T f) k).isSome) :
    (runNumWrite T files k).isSome := by
  induction files with
  | nil => cases hf
  | cons g fs ih =>
    rcases List.mem_cons.mp hf with rfl | hf2
    · exact oget_isSome_of_right _ _ h
    · exact oget_isSome_of_left _ _ (ih hf2)

theorem runStreetTouch_isSome (files : List (List Row)) (f : List Row) (s : String)
    (hf : f ∈ files) (h : (fileStreetTouch f s).isSome) :
    (runStreetTouch files s).isSome := by
  induction files with
  | nil => cases hf
  | cons g fs ih =>
    rcases List.mem_cons.mp hf with rfl | hf2
    · obtain ⟨U, hU⟩ := Option.isSome_iff_exists.mp h
      cases ht : runStreetTouch fs s <;> simp [runStreetTouch, hU, ht]
    · have h2 := ih hf2
      obtain ⟨V, hV⟩ := Option.isSome_iff_exists.mp h2
      cases ht : fileStreetTouch g s <;> simp [runStreetTouch, hV, ht]

theorem run_file_keys_present (T : ℚ → ℚ → ℚ × ℚ) (files : List (List Row)) (S0 : Store)
    (st : Stats) (f : List Row) (hf : f ∈ files) :
    FileKeysPres T f (run_files T files S0 st).1 := by
  refine ⟨?_, ?_, ?_⟩
  · intro c hc
    rw [run_towns_eval]
    exact oget_isSome_of_right _ _ (runTownWrite_isSome files f c hf hc)
  · intro s hs
    rw [run_streets_eval]
    obtain ⟨U, hU⟩ := Option.isSome_iff_exists.mp (runStreetTouch_isSome files f s hf hs)
    simp [hU]
  · intro k hk
    rw [run_numbers_eval]
    exact oget_isSome_of_left _ _ (runNumWrite_isSome T files f k hf hk)

theorem pcb_preserves_pres (T : ℚ → ℚ → ℚ × ℚ) (g : List Row) (W : Store) (st : Stats)
    (f : List Row) (hp : FileKeysPres T f W) :
    FileKeysPres T f (outStore (process_csv_bulk T g W st)) := by
  obtain ⟨h1, h2, h3⟩ := hp
  refine ⟨?_, ?_, ?_⟩
  · intro c hc
    rw [pcb_towns_eval]
    exact oget_isSome_of_left _ _ (h1 c hc)
  · intro s hs
    rw [pcb_streets_eval]
    cases ht : fileStreetTouch g s with
    | none => simpa using h2 s hs
    | some U => simp
  · intro k hk
    rw [pcb_numbers_eval]
    exact oget_isSome_of_right _ _ (h3 k hk)

theorem fileTownWrite_isSome_of_mem (f : List Row) (d : Collect) (c : Int)
    (hcg : collect_geo_data f = .ok d)
    (hdata : ∀ x ∈ d.town_codes, (dlookup d.town_data_map x).isSome)
    (hc : c ∈ d.town_codes) : (fileTownWrite f c).isSome := by
  simp only [fileTownWrite, hcg, if_pos hc]
  exact hdata c hc

theorem fileStreetTouch_isSome_of_mem (f : List Row) (d : Collect) (s : String)
    (hcg : collect_geo_data f = .ok d) (hs : s ∈ d.street_names) :
    (fileStreetTouch f s).isSome := by
  simp only [fileStreetTouch, hcg]
  by_cases h1 : s ∈ d.stm_keys
  · simp [h1]
  · simp [h1, hs]

theorem length_filter_none_some (nds : List NumberData) (g : Int → Option NumberRec) :
    (nds.filter (fun n => (g n.code).isNone)).length +
      (nds.filter (fun n => (g n.code).isSome)).length = nds.length := by
  induction nds with
  | nil => rfl
  | cons a tl ih =>
    cases hg : g a.code <;> simp [List.filter_cons, hg] <;> omega

theorem processChunks_stats_towns (T : ℚ → ℚ → ℚ × ℚ) (tc : List Int) (sc : List String)
    (cs : List (List Row)) : ∀ (S : Store) (st : Stats),
    (outStats (processChunks T tc sc cs S st)).towns_created = st.towns_created ∧
    (outStats (processChunks T tc sc cs S st)).towns_updated = st.towns_updated ∧
    (outStats (processChunks T tc sc cs S st)).streets_created = st.streets_created ∧
    (outStats (processChunks T tc sc cs S st)).streets_updated = st.streets_updated := by
  induction cs with
  | nil =>
    intro S st
    exact ⟨rfl, rfl, rfl, rfl⟩
  | cons c cs ih =>
    intro S st
    cases hb : buildChunk T tc sc c with
    | error u => simp [processChunks, process_number_chunk, hb, outStats]
    | ok nds => simp [processChunks, process_number_chunk, hb, ih]

theorem processChunks_run1_numbers (T : ℚ → ℚ → ℚ × ℚ) (tc : List Int) (sc : List String)
    (cs : List (List Row)) : ∀ (S : Store) (st : Stats),
    (outStats (processChunks T tc sc cs S st)).numbers_created +
      (outStats (processChunks T tc sc cs S st)).numbers_updated =
      st.numbers_created + st.numbers_updated + chunksBuiltLen T tc sc cs := by
  induction cs with
  | nil =>
    intro S st
    simp [processChunks, outStats, chunksBuiltLen]
  | cons c cs ih =>
    intro S st
    cases hb : buildChunk T tc sc c with
    | error u => simp [processChunks, process_number_chunk, hb, outStats, chunksBuiltLen]
    | ok nds =>
      simp only [processChunks, process_number_chunk, hb, chunksBuiltLen]
      rw [ih]
      simp only []
      have hsplit := length_filter_none_some nds S.numbers
      omega

theorem processChunks_second_stats (T : ℚ → ℚ → ℚ × ℚ) (tc : List Int) (sc : List String)
    (cs : List (List Row)) : ∀ (W : Store) (st : Stats),
    (∀ k, (lastVal (chunksWritesAll T tc sc cs) k).isSome → (W.numbers k).isSome) →
    (outStats (processChunks T tc sc cs W st)).numbers_created = st.numbers_created ∧
    (outStats (processChunks T tc sc cs W st)).numbers_updated =
      st.numbers_updated + chunksBuiltLen T tc sc cs := by
  induction cs with
  | nil =>
    intro W st _
    simp [processChunks, outStats, chunksBuiltLen]
  | cons c cs ih =>
    intro W st hpres
    cases hb : buildChunk T tc sc c with
    | error u => simp [processChunks, process_number_chunk, hb, outStats, chunksBuiltLen]
    | ok nds =>
      have hw : chunksWritesAll T tc sc (c :: cs) =
          chunkWrites T tc sc c ++ chunksWritesAll T tc sc cs := by
        simp [chunksWritesAll, hb]
      have hpresent : ∀ n ∈ nds, (W.numbers n.code).isSome := by
        intro n hn
        apply hpres n.code
        rw [hw, lastVal_append]
        apply oget_isSome_of_right
        have hmem : (n.code, toNumberRec n) ∈ chunkWrites T tc sc c := by
          simp only [chunkWrites, hb]
          exact List.mem_map_of_mem _ hn
        exact lastVal_isSome_of_mem _ _ hmem
      have hcreate : nds.filter (fun n => (W.numbers n.code).isNone) = [] := by
        rw [List.filter_eq_nil_iff]
        intro n hn
        have hs := hpresent n hn
        cases hW : W.numbers n.code
        · rw [hW] at hs
          simp at hs
        · simp [hW]
      have hupdate : nds.filter (fun n => (W.numbers n.code).isSome) = nds := by
        rw [List.filter_eq_self]
        intro n hn
        simpa using hpresent n hn
      have hpres2 : ∀ k, (lastVal (chunksWritesAll T tc sc cs) k).isSome →
          ((applyWrites (nds.map (fun n => (n.code, toNumberRec n))) W.numbers) k).isSome := by
        intro k hk
        rw [applyWrites_eval]
        apply oget_isSome_of_right
        apply hpres k
        rw [hw, lastVal_append]
        exact oget_isSome_of_left _ _ hk
      simp only [processChunks, process_number_chunk, hb, hcreate, hupdate, chunksBuiltLen,
        List.map_nil, List.length_nil, applyWrites_nil]
      constructor
      · rw [(ih _ _ hpres2).1]
        simp
      · rw [(ih _ _ hpres2).2]
        simp
        try omega

theorem pcb_run1_stats (T : ℚ → ℚ → ℚ × ℚ) (f : List Row) (S : Store) (st : Stats) :
    (outStats (process_csv_bulk T f S st)).towns_created +
      (outStats (process_csv_bulk T f S st)).towns_updated =
      st.towns_created + st.towns_updated + fileTownsTotal f ∧
    (outStats (process_csv_bulk T f S st)).streets_created +
      (outStats (process_csv_bulk T f S st)).streets_updated =
      st.streets_created + st.streets_updated + fileStreetsTotal f ∧
    (outStats (process_csv_bulk T f S st)).numbers_created +
      (outStats (process_csv_bulk T f S st)).numbers_updated =
      st.numbers_created + st.numbers_updated + fileNumbersTotal T f := by
  cases hcg : collect_geo_data f with
  | error u =>
    cases u
    rw [pcb_collect_error T f S st hcg]
    simp [outStats, fileTownsTotal, fileStreetsTotal, fileNumbersTotal, hcg]
  | ok d =>
    obtain ⟨hdata, hsub, -, -, -, -, hnk⟩ := collect_inv f d hcg
    rw [pcb_ok_unfold T f S st d hcg, process_towns_cache d S hdata]
    refine ⟨?_, ?_, ?_⟩
    · rw [(processChunks_stats_towns T d.town_codes d.street_names
          (chunksOf 10000 f) _ _).1,
        (processChunks_stats_towns T d.town_codes d.street_names
          (chunksOf 10000 f) _ _).2.1]
      have hc1 : (process_towns d S).created ≤ d.town_codes.length := by
        rw [process_towns_created d S hdata]
        exact List.length_filter_le _ _
      simp only [addStreetStats, addTownStats, fileTownsTotal, hcg]
      omega
    · rw [(processChunks_stats_towns T d.town_codes d.street_names
          (chunksOf 10000 f) _ _).2.2.1,
        (processChunks_stats_towns T d.town_codes d.street_names
          (chunksOf 10000 f) _ _).2.2.2]
      have hc2 : (process_streets d d.town_codes (process_towns d S).store).created ≤
          d.street_names.length := by
        rw [process_streets_created]
        exact List.length_filter_le _ _
      simp only [addStreetStats, addTownStats, fileStreetsTotal, hcg]
      omega
    · rw [processChunks_run1_numbers T d.town_codes d.street_names (chunksOf 10000 f) _ _]
      simp only [addStreetStats, addTownStats, fileNumbersTotal, hcg]

theorem pcb_second_stats (T : ℚ → ℚ → ℚ × ℚ) (f : List Row) (W : Store) (st : Stats)
    (hp : FileKeysPres T f W) :
    (outStats (process_csv_bulk T f W st)).towns_created = st.towns_created ∧
    (outStats (process_csv_bulk T f W st)).towns_updated =
      st.towns_updated + fileTownsTotal f ∧
    (outStats (process_csv_bulk T f W st)).streets_created = st.streets_created ∧
    (outStats (process_csv_bulk T f W st)).streets_updated =
      st.streets_updated + fileStreetsTotal f ∧
    (outStats (process_csv_bulk T f W st)).numbers_created = st.numbers_created ∧
    (outStats (process_csv_bulk T f W st)).numbers_updated =
      st.numbers_updated + fileNumbersTotal T f := by
  obtain ⟨hpt, hps, hpn⟩ := hp
  cases hcg : collect_geo_data f with
  | error u =>
    cases u
    rw [pcb_collect_error T f W st hcg]
    simp [outStats, fileTownsTotal, fileStreetsTotal, fileNumbersTotal, hcg]
  | ok d =>
    obtain ⟨hdata, hsub, -, -, -, -, hnk⟩ := collect_inv f d hcg
    have hmissT : d.town_codes.filter (fun c => (W.towns c).isNone) = [] := by
      rw [List.filter_eq_nil_iff]
      intro c hc
      have hsm := hpt c (fileTownWrite_isSome_of_mem f d c hcg hdata hc)
      cases hW : W.towns c
      · rw [hW] at hsm
        simp at hsm
      · simp [hW]
    have hcreatedT : (process_towns d W).created = 0 := by
      rw [process_towns_created d W hdata, hmissT]
      rfl
    have hmissS : d.street_names.filter (fun n => (W.streets n).isNone) = [] := by
      rw [List.filter_eq_nil_iff]
      intro s hs
      have hsm := hps s (fileStreetTouch_isSome_of_mem f d s hcg hs)
      cases hW : W.streets s
      · rw [hW] at hsm
        simp at hsm
      · simp [hW]
    have hcreatedS : (process_streets d d.town_codes (process_towns d W).store).created
        = 0 := by
      rw [process_streets_created, streets_after_towns, hmissS]
      rfl
    have hpres : ∀ k, (lastVal (chunksWritesAll T d.town_codes d.street_names
        (chunksOf 10000 f)) k).isSome →
        ((process_streets d d.town_codes (process_towns d W).store).store.numbers
          k).isSome := by
      intro k hk
      rw [numbers_after_streets, numbers_after_towns]
      apply hpn k
      simpa [fileNumWrites, hcg] using hk
    rw [pcb_ok_unfold T f W st d hcg, process_towns_cache d W hdata]
    obtain ⟨hn1, hn2⟩ := processChunks_second_stats T d.town_codes d.street_names
      (chunksOf 10000 f)
      (process_streets d d.town_codes (process_towns d W).store).store
      (addStreetStats (addTownStats st d.town_codes.length (process_towns d W).created)
        d.street_names.length
        (process_streets d d.town_codes (process_towns d W).store).created) hpres
    obtain ⟨ht1, ht2, ht3, ht4⟩ := processChunks_stats_towns T d.town_codes d.street_names
      (chunksOf 10000 f)
      (process_streets d d.town_codes (process_towns d W).store).store
      (addStreetStats (addTownStats st d.town_codes.length (process_towns d W).created)
        d.street_names.length
        (process_streets d d.town_codes (process_towns d W).store).created)
    refine ⟨?_, ?_, ?_, ?_, ?_, ?_⟩
    · rw [ht1]
      simp [addTownStats, addStreetStats, hcreatedT]
    · rw [ht2]
      simp [addTownStats, addStreetStats, hcreatedT, fileTownsTotal, hcg]
    · rw [ht3]
      simp [addTownStats, addStreetStats, hcreatedS]
    · rw [ht4]
      simp [addTownStats, addStreetStats, hcreatedS, fileStreetsTotal, hcg]
    · rw [hn1]
      simp [addTownStats, addStreetStats]
    · rw [hn2]
      simp only [addTownStats, addStreetStats, fileNumbersTotal, hcg]

theorem run_cons_sixfields (T : ℚ → ℚ → ℚ × ℚ) (f : List Row) (fs : List (List Row))
    (X : Store) :
    (run_files T (f :: fs) X stats0).2.towns_created =
      (outStats (process_csv_bulk T f X stats0)).towns_created +
        (run_files T fs (outStore (process_csv_bulk T f X stats0))
          stats0).2.towns_created ∧
    (run_files T (f :: fs) X stats0).2.towns_updated =
      (outStats (process_csv_bulk T f X stats0)).towns_updated +
        (run_files T fs (outStore (process_csv_bulk T f X stats0))
          stats0).2.towns_updated ∧
    (run_files T (f :: fs) X stats0).2.streets_created =
      (outStats (process_csv_bulk T f X stats0)).streets_created +
        (run_files T fs (outStore (process_csv_bulk T f X stats0))
          stats0).2.streets_created ∧
    (run_files T (f :: fs) X stats0).2.streets_updated =
      (outStats (process_csv_bulk T f X stats0)).streets_updated +
        (run_files T fs (outStore (process_csv_bulk T f X stats0))
          stats0).2.streets_updated ∧
    (run_files T (f :: fs) X stats0).2.numbers_created =
      (outStats (process_csv_bulk T f X stats0)).numbers_created +
        (run_files T fs (outStore (process_csv_bulk T f X stats0))
          stats0).2.numbers_created ∧
    (run_files T (f :: fs) X stats0).2.numbers_updated =
      (outStats (process_csv_bulk T f X stats0)).numbers_updated +
        (run_files T fs (outStore (process_csv_bulk T f X stats0))
          stats0).2.numbers_updated := by
  cases h : process_csv_bulk T f X stats0 with
  | ok p =>
    obtain ⟨X1, st'⟩ := p
    simp only [run_files, h, outStats, outStore]
    rw [run_stats_decompose T fs X1 ({ st' with files := st'.files + 1 })]
    simp [addStats]
  | error p =>
    obtain ⟨X1, st'⟩ := p
    simp only [run_files, h, outStats, outStore]
    rw [run_stats_decompose T fs X1 ({ st' with warnings := st'.warnings + 1 })]
    simp [addStats]

theorem run_second_counters (T : ℚ → ℚ → ℚ × ℚ) (files : List (List Row)) :
    ∀ (S W : Store), (∀ f ∈ files, FileKeysPres T f W) →
    (run_files T files W stats0).2.towns_created = 0 ∧
    (run_files T files W stats0).2.streets_created = 0 ∧
    (run_files T files W stats0).2.numbers_created = 0 ∧
    (run_files T files W stats0).2.towns_updated =
      (run_files T files S stats0).2.towns_created +
        (run_files T files S stats0).2.towns_updated ∧
    (run_files T files W stats0).2.streets_updated =
      (run_files T files S stats0).2.streets_created +
        (run_files T files S stats0).2.streets_updated ∧
    (run_files T files W stats0).2.numbers_updated =
      (run_files T files S stats0).2.numbers_created +
        (run_files T files S stats0).2.numbers_updated := by
  induction files with
  | nil =>
    intro S W _
    simp [run_files, stats0]
  | cons f fs ih =>
    intro S W hpres
    have hW := hpres f (List.mem_cons_self f fs)
    have hpres2 : ∀ g ∈ fs, FileKeysPres T g (outStore (process_csv_bulk T f W stats0)) :=
      fun g hg => pcb_preserves_pres T f W stats0 g (hpres g (List.mem_cons_of_mem f hg))
    obtain ⟨i1, i2, i3, i4, i5, i6⟩ := ih (outStore (process_csv_bulk T f S stats0))
      (outStore (process_csv_bulk T f W stats0)) hpres2
    obtain ⟨w1, w2, w3, w4, w5, w6⟩ := pcb_second_stats T f W stats0 hW
    obtain ⟨r1, r2, r3⟩ := pcb_run1_stats T f S stats0
    obtain ⟨cW1, cW2, cW3, cW4, cW5, cW6⟩ := run_cons_sixfields T f fs W
    obtain ⟨cS1, cS2, cS3, cS4, cS5, cS6⟩ := run_cons_sixfields T f fs S
    have z1 : stats0.towns_created = 0 := rfl
    have z2 : stats0.towns_updated = 0 := rfl
    have z3 : stats0.streets_created = 0 := rfl
    have z4 : stats0.streets_updated = 0 := rfl
    have z5 : stats0.numbers_created = 0 := rfl
    have z6 : stats0.numbers_updated = 0 := rfl
    refine ⟨?_, ?_, ?_, ?_, ?_, ?_⟩ <;> omega

/-- C7 (confirmed): running the import twice over an unchanged archive is
idempotent on the store: the second run reproduces the first run's store exactly
(keyed by natural codes and names, so no duplicate Town, Street or Number rows
can arise), the second run's created counters are all zero, and its updated
counters equal the first run's created plus updated counts, reflecting the
re-processed entities. -/
theorem C7_second_run_idempotent (T : ℚ → ℚ → ℚ × ℚ) (files : List (List Row))
    (S0 : Store) :
    (run_files T files (run_files T files S0 stats0).1 stats0).1 =
      (run_files T files S0 stats0).1 ∧
    (run_files T files (run_files T files S0 stats0).1 stats0).2.towns_created = 0 ∧
    (run_files T files (run_files T files S0 stats0).1 stats0).2.streets_created = 0 ∧
    (run_files T files (run_files T files S0 stats0).1 stats0).2.numbers_created = 0 ∧
    (run_files T files (run_files T files S0 stats0).1 stats0).2.towns_updated =
      (run_files T files S0 stats0).2.towns_created +
        (run_files T files S0 stats0).2.towns_updated ∧
    (run_files T files (run_files T files S0 stats0).1 stats0).2.streets_updated =
      (run_files T files S0 stats0).2.streets_created +
        (run_files T files S0 stats0).2.streets_updated ∧
    (run_files T files (run_files T files S0 stats0).1 stats0).2.numbers_updated =
      (run_files T files S0 stats0).2.numbers_created +
        (run_files T files S0 stats0).2.numbers_updated := by
  have hpres : ∀ f ∈ files, FileKeysPres T f (run_files T files S0 stats0).1 :=
    fun f hf => run_file_keys_present T files S0 stats0 f hf
  obtain ⟨h1, h2, h3, h4, h5, h6⟩ :=
    run_second_counters T files S0 (run_files T files S0 stats0).1 hpres
  exact ⟨run_twice_store T files S0, h1, h2, h3, h4, h5, h6⟩

end Ruian
